import Mathlib

/-!
Verification development for the ClassIn-to-gradebook conversion utility.

The definitions below are a shallow embedding of the utility module
(`parseCSVLine`, `parseCSV`, `getWorkingDaysFromStartToToday`,
`findHeaderRowIndex`, `getUniqueNonNumericMarks`,
`processClassInToGradebook`, `generateCSVContent`) and of the
grade-mapping merge performed by the application shell
(`handleFileSelect`).

Modelling conventions:
* JavaScript strings are Lean `String`s; the handful of string builtins
  the code uses (`trim`, `toUpperCase`, `startsWith`, `includes`,
  `split`, `replace` with the concrete regexes appearing in the source)
  are re-implemented structurally on `List Char` so that every
  definition evaluates inside the kernel.  JavaScript `trim` and
  `toUpperCase` also affect some non-ASCII code points; the inputs the
  program manipulates only exercise the ASCII behaviour modelled here.
* JavaScript numbers are modelled by `JsNum`: an exact unnormalised
  rational (`JsRat`), a signed infinity, or NaN, with the IEEE
  special-value rules for the arithmetic the pipeline performs.  The one
  idealisation: finite values are kept exact, so the binary rounding of
  64-bit floats and their overflow of astronomically large finite
  literals to infinity are not reproduced.
* `parseFloat` is modelled with its full decimal grammar — leading
  whitespace, an optional sign, the word `Infinity`, digits with an
  optional decimal point, fraction and exponent part — returning `none`
  where JavaScript returns `NaN` and keeping finite literals exact.
* `Number.prototype.toFixed(1)` is modelled by `toFixed1` per its
  specification: `NaN` and infinities print as themselves, magnitudes of
  at least `10^21` fall back to the exponential `ToString` rendering
  (taken on the exact value), and every other value is rounded to the
  nearest tenth (ties toward the larger integer) and rendered with one
  digit after the point.
* `new Date()` ("today") and `Math.random()` are ambient inputs of the
  source; they are passed explicitly: `today` is a civil day number
  (days since 1970-01-01) and `rand : Nat → Nat` gives the value of
  `Math.floor(Math.random() * len)` drawn at the k-th call (reduced
  `% len` to stay in range, as the JavaScript expression is).
* JavaScript objects used as dictionaries (`columnStats`,
  `assignmentDates`, the grade mapping) are association lists; writes
  prepend and lookups take the first hit, which models
  last-write-wins overwriting.
-/

/-! ### Character and string primitives -/

/-- The character for a decimal digit value. -/
def digitChar (n : Nat) : Char := Char.ofNat (48 + n)

/-- Decimal digit characters of a natural number, most significant first.
Fuel-based so that it is structurally recursive. -/
def natToDecCharsAux : Nat → Nat → List Char
  | 0, _ => []
  | fuel + 1, n =>
    if n < 10 then [digitChar n]
    else natToDecCharsAux fuel (n / 10) ++ [digitChar (n % 10)]

/-- Decimal digit characters of a natural number, most significant first. -/
def natToDecChars (n : Nat) : List Char := natToDecCharsAux (n + 1) n

/-- Decimal rendering of an integer, as JavaScript renders integral values. -/
def intToDecString (n : Int) : String :=
  if n < 0 then String.mk (('-') :: natToDecChars n.natAbs)
  else String.mk (natToDecChars n.natAbs)

/-- Numeric value of a list of decimal digit characters. -/
def digitsVal (ds : List Char) : Nat :=
  ds.foldl (fun a c => 10 * a + (c.toNat - 48)) 0

/-- Both-ends whitespace trimming on characters (JavaScript `trim`). -/
def trimChars (cs : List Char) : List Char :=
  ((cs.dropWhile Char.isWhitespace).reverse.dropWhile Char.isWhitespace).reverse

/-- JavaScript `String.prototype.trim`. -/
def jsTrim (s : String) : String := String.mk (trimChars s.data)

/-- JavaScript `String.prototype.toUpperCase` (ASCII letters). -/
def jsToUpper (s : String) : String := String.mk (s.data.map Char.toUpper)

/-- Does the first list start with the second one? (JavaScript `startsWith`.) -/
def chStartsWith : List Char → List Char → Bool
  | _, [] => true
  | [], _ :: _ => false
  | c :: s, d :: p => c == d && chStartsWith s p

/-- Does the first list contain the second as a contiguous run?
(JavaScript `includes`.) -/
def chContains : List Char → List Char → Bool
  | s, pat =>
    if chStartsWith s pat then true
    else
      match s with
      | [] => false
      | _ :: t => chContains t pat

/-- JavaScript `split` on a single-character separator. -/
def splitOnCharAux (c : Char) : List Char → List Char → List String
  | [], acc => [String.mk acc.reverse]
  | d :: t, acc =>
    if d = c then String.mk acc.reverse :: splitOnCharAux c t []
    else splitOnCharAux c t (d :: acc)

/-- JavaScript `split` on a single-character separator. -/
def splitOnChar (c : Char) (s : String) : List String := splitOnCharAux c s.data []

/-- JavaScript `split(/\r?\n/)`: cut at `\r\n` or at a bare `\n`. -/
def splitLinesAux : List Char → List Char → List String
  | [], acc => [String.mk acc.reverse]
  | ('\r') :: ('\n') :: t, acc => String.mk acc.reverse :: splitLinesAux t []
  | ('\n') :: t, acc => String.mk acc.reverse :: splitLinesAux t []
  | c :: t, acc => splitLinesAux t (c :: acc)

/-- JavaScript `content.split(/\r?\n/)`. -/
def splitLinesJS (s : String) : List String := splitLinesAux s.data []

/-- JavaScript `value.replace(/""/g, String.fromCharCode(34))`: collapse each
doubled double-quote pair into a single double quote, scanning left to right. -/
def collapseDoubledQuotes : List Char → List Char
  | [] => []
  | [c] => [c]
  | c :: d :: t =>
    if c = ('"') ∧ d = ('"') then ('"') :: collapseDoubledQuotes t
    else c :: collapseDoubledQuotes (d :: t)

/-- JavaScript `value.replace(/"/g, twoQuotes)`: double every double quote. -/
def doubleQuoteChars : List Char → List Char
  | [] => []
  | c :: t =>
    if c = ('"') then ('"') :: ('"') :: doubleQuoteChars t
    else c :: doubleQuoteChars t

/-- String form of `doubleQuoteChars`. -/
def doubleQuoteStr (s : String) : String := String.mk (doubleQuoteChars s.data)

/-- JavaScript `Array.prototype.join`. -/
def joinWith (sep : String) : List String → String
  | [] => ("")
  | [x] => x
  | x :: y :: t => x ++ sep ++ joinWith sep (y :: t)

/-- The source applies `.replace(/\.0$/, dotZero)` where the replacement text
is again `".0"`: when the string ends in `.0` that suffix is replaced by
itself.  Modelled literally (and provably the identity). -/
def jsReplaceDotZeroSuffix (s : String) : String :=
  match s.data.reverse with
  | ('0') :: ('.') :: rest => String.mk (rest.reverse ++ [('.'), ('0')])
  | _ => s

/-- JavaScript `a || b` on strings: the empty string is falsy. -/
def jsOrEmpty (a b : String) : String := if a = ("") then b else a

/-- JavaScript `dict[k] || b` where a missing key gives `undefined`. -/
def jsOrEmptyOpt (a : Option String) (b : String) : String :=
  match a with
  | some s => if s = ("") then b else s
  | none => b

/-! ### Exact JavaScript-number model -/

/-- An unnormalised rational: the exact value of a JavaScript number as the
pipeline computes it.  The denominator is kept positive by construction. -/
structure JsRat where
  num : Int
  den : Int
deriving DecidableEq

/-- Embed an integer. -/
def JsRat.ofInt (n : Int) : JsRat := ⟨n, 1⟩

/-- Addition. -/
def JsRat.add (a b : JsRat) : JsRat := ⟨a.num * b.den + b.num * a.den, a.den * b.den⟩

/-- Multiplication. -/
def JsRat.mul (a b : JsRat) : JsRat := ⟨a.num * b.num, a.den * b.den⟩

/-- Division, keeping the denominator positive. -/
def JsRat.div (a b : JsRat) : JsRat :=
  if b.num < 0 then ⟨-(a.num * b.den), -(a.den * b.num)⟩
  else ⟨a.num * b.den, a.den * b.num⟩

/-- Floor of the exact value (the denominator is positive, so Euclidean
division is floor division). -/
def JsRat.floorInt (a : JsRat) : Int := a.num.ediv a.den

/-- A JavaScript number as the pipeline computes it: an exact finite value,
a signed infinity, or NaN.  Finite values are exact rationals; the binary
rounding and overflow of 64-bit floats on finite values are the one
idealisation, noted in the module comment. -/
inductive JsNum where
  | fin (q : JsRat)
  | inf (neg : Bool)
  | nan
deriving DecidableEq

/-- Embed an integer. -/
def JsNum.ofInt (n : Int) : JsNum := JsNum.fin (JsRat.ofInt n)

/-- Addition with the IEEE special-value rules: NaN propagates, opposite
infinities give NaN. -/
def JsNum.add : JsNum → JsNum → JsNum
  | JsNum.nan, _ => JsNum.nan
  | _, JsNum.nan => JsNum.nan
  | JsNum.inf s, JsNum.inf t => if s = t then JsNum.inf s else JsNum.nan
  | JsNum.inf s, JsNum.fin _ => JsNum.inf s
  | JsNum.fin _, JsNum.inf t => JsNum.inf t
  | JsNum.fin a, JsNum.fin b => JsNum.fin (a.add b)

/-- Multiplication with the IEEE special-value rules: NaN propagates,
infinity times zero is NaN, signs combine. -/
def JsNum.mul : JsNum → JsNum → JsNum
  | JsNum.nan, _ => JsNum.nan
  | _, JsNum.nan => JsNum.nan
  | JsNum.inf s, JsNum.inf t => JsNum.inf (s != t)
  | JsNum.inf s, JsNum.fin b =>
    if b.num = 0 then JsNum.nan else JsNum.inf (s != decide (b.num < 0))
  | JsNum.fin a, JsNum.inf t =>
    if a.num = 0 then JsNum.nan else JsNum.inf (t != decide (a.num < 0))
  | JsNum.fin a, JsNum.fin b => JsNum.fin (a.mul b)

/-- Division with the IEEE special-value rules: NaN propagates, infinity
over infinity and zero over zero are NaN, a non-zero finite value over
zero is a signed infinity, anything finite over infinity is zero. -/
def JsNum.div : JsNum → JsNum → JsNum
  | JsNum.nan, _ => JsNum.nan
  | _, JsNum.nan => JsNum.nan
  | JsNum.inf _, JsNum.inf _ => JsNum.nan
  | JsNum.inf s, JsNum.fin b =>
    JsNum.inf (s != decide (b.num < 0))
  | JsNum.fin _, JsNum.inf _ => JsNum.fin (JsRat.ofInt 0)
  | JsNum.fin a, JsNum.fin b =>
    if b.num = 0 then
      (if a.num = 0 then JsNum.nan else JsNum.inf (decide (a.num < 0)))
    else JsNum.fin (a.div b)

/-- Sum of a list of values, as `reduce((a, b) => a + b, 0)`. -/
def JsNum.sumList (l : List JsNum) : JsNum := l.foldl JsNum.add (JsNum.ofInt 0)

/-- JavaScript `parseFloat`: skip leading whitespace, an optional sign,
then the longest decimal-literal prefix — the word `Infinity`, or digits
with an optional decimal point, a fraction and an optional exponent part
(`e`/`E`, optional sign, digits).  `none` models `NaN`.  Finite literals
are kept exact (no 64-bit rounding or overflow). -/
def jsParseFloat (s : String) : Option JsNum :=
  let cs := s.data.dropWhile Char.isWhitespace
  let signAndRest : Int × List Char :=
    match cs with
    | ('-') :: r => (-1, r)
    | ('+') :: r => (1, r)
    | r => (1, r)
  let sign := signAndRest.1
  let body := signAndRest.2
  if chStartsWith body ("Infinity".data) then some (JsNum.inf (sign < 0))
  else
    let intDigits := body.takeWhile Char.isDigit
    let afterInt := body.drop intDigits.length
    let fracDigits :=
      match afterInt with
      | ('.') :: r => r.takeWhile Char.isDigit
      | _ => []
    let afterFrac :=
      match afterInt with
      | ('.') :: r => r.drop fracDigits.length
      | _ => afterInt
    if intDigits.isEmpty && fracDigits.isEmpty then none
    else
      let expVal : Int :=
        match afterFrac with
        | e :: rest =>
          if e = ('e') ∨ e = ('E') then
            let expSignAndRest : Int × List Char :=
              match rest with
              | ('-') :: r2 => (-1, r2)
              | ('+') :: r2 => (1, r2)
              | r2 => (1, r2)
            let expDigits := expSignAndRest.2.takeWhile Char.isDigit
            if expDigits.isEmpty then 0
            else expSignAndRest.1 * (digitsVal expDigits : Int)
          else 0
        | [] => 0
      let baseNum : Int :=
        sign * ((digitsVal intDigits : Int) * (10 : Int) ^ fracDigits.length +
                (digitsVal fracDigits : Int))
      let baseDen : Int := (10 : Int) ^ fracDigits.length
      if 0 ≤ expVal then some (JsNum.fin ⟨baseNum * (10 : Int) ^ expVal.toNat, baseDen⟩)
      else some (JsNum.fin ⟨baseNum, baseDen * (10 : Int) ^ (-expVal).toNat⟩)

/-- Character rendering of a signed tenths count `n` as `n / 10` with one
digit after the decimal point. -/
def toFixed1Chars (n : Int) : List Char :=
  (if n < 0 then [('-')] else []) ++
    natToDecChars (n.natAbs / 10) ++ [('.')] ++ natToDecChars (n.natAbs % 10)

/-- The condition of `toFixed`'s `ToString` escape branch: the value is not
finite, or its magnitude is at least `10^21`. -/
def toFixedBig (x : JsNum) : Bool :=
  match x with
  | JsNum.fin q => decide ((10 : Int) ^ 21 * q.den ≤ (q.num.natAbs : Int))
  | _ => true

/-- The exponential `ToString` rendering of a finite value of magnitude at
least `10^21`, taken on the exact value: sign, leading digit, the remaining
integer-part digits with trailing zeros removed, and the decimal exponent
(JavaScript prints the same form from the nearest 64-bit float, e.g.
`1e+21`; the digits beyond float precision are the exactness idealisation
noted in the module comment). -/
def jsBigToString (q : JsRat) : String :=
  let signChars : List Char :=
    if (decide (q.num < 0)) != (decide (q.den < 0)) then [('-')] else []
  let ds := natToDecChars (q.num.natAbs / q.den.natAbs)
  let msd := ds.headD ('0')
  let rest := ((ds.drop 1).reverse.dropWhile (fun c => c = ('0'))).reverse
  String.mk (signChars ++ [msd] ++
    (if rest.isEmpty then [] else ('.') :: rest) ++
    ('e') :: ('+') :: natToDecChars (ds.length - 1))

/-- `Number.prototype.toFixed(1)`: `NaN` and the infinities print as
themselves, a magnitude of at least `10^21` falls back to `ToString`, and
otherwise the value times ten is rounded to the nearest integer (ties to
the larger integer) and rendered with one digit after the decimal point. -/
def toFixed1 (x : JsNum) : String :=
  match x with
  | JsNum.nan => ("NaN")
  | JsNum.inf neg => if neg then ("-Infinity") else ("Infinity")
  | JsNum.fin q =>
    if (10 : Int) ^ 21 * q.den ≤ (q.num.natAbs : Int) then jsBigToString q
    else String.mk (toFixed1Chars (((q.mul (JsRat.ofInt 10)).add ⟨1, 2⟩).floorInt))

/-- Character-level form of `oneDecimalPlace`: after an optional minus
sign, at least one digit, a point, exactly one final digit. -/
def oneDecimalPlaceChars (cs0 : List Char) : Bool :=
  let cs := if cs0.headD (' ') = ('-') then cs0.tail else cs0
  match cs.reverse with
  | d :: e :: rest => d.isDigit && (e = ('.')) && !rest.isEmpty && rest.all Char.isDigit
  | _ => false

/-- Recognises a string rendered with exactly one digit after the decimal
point: an optional minus sign, at least one digit, a point, one digit. -/
def oneDecimalPlace (s : String) : Bool := oneDecimalPlaceChars s.data

/-! ### Data model (`types.ts`) -/

/-- A detected assignment column. -/
structure ProcessedAssignment where
  name : String
  totalMarks : String
  originalIndex : Nat
deriving DecidableEq

/-- One output record of the conversion. -/
structure TargetRow where
  StudentName : String
  AssignmentName : String
  AssignmentDate : String
  Category : String
  Marks : String
  TotalMarksPossible : String
deriving DecidableEq

/-- Result of `parseCSV`. -/
structure ParseResult where
  headers : List String
  data : List (List String)
deriving DecidableEq

/-- The caller-owned mapping from uppercase status token to percentage
string, as a JavaScript object: an association list, first hit wins. -/
abbrev GradeMapping : Type := List (String × String)

/-- Object property read: `gm[k]`, `none` for a missing key. -/
def gmLookup (gm : GradeMapping) (k : String) : Option String :=
  (List.find? (fun p => p.1 == k) gm).map (fun p => p.2)

/-- `gm.hasOwnProperty(k)`. -/
def gmHas (gm : GradeMapping) (k : String) : Bool := (gmLookup gm k).isSome

/-- Dictionary lookup for the internal `columnStats` / `assignmentDates`
objects (writes prepend, so the first hit is the last write). -/
def dictLookup {β : Type} (l : List (String × β)) (k : String) : Option β :=
  (List.find? (fun p => p.1 == k) l).map (fun p => p.2)

/-! ### `parseCSVLine` and `parseCSV` -/

/-- Finish one scanned cell: strip a surrounding quote pair if present
(collapsing doubled quotes inside it), then trim. -/
def finalizeCell (cs : List Char) : String :=
  let v :=
    if cs.head? = some ('"') && cs.getLast? = some ('"') then
      collapseDoubledQuotes ((cs.drop 1).dropLast)
    else cs
  jsTrim (String.mk v)

/-- The quote-aware scan of `parseCSVLine`: a double quote toggles the
in-quotes state (and stays part of the cell text); a comma outside quotes
ends the cell. -/
def parseCSVLineAux : List Char → Bool → List Char → List String
  | [], _, acc => [finalizeCell acc.reverse]
  | c :: rest, inQuotes, acc =>
    if c = ('"') then parseCSVLineAux rest (!inQuotes) (c :: acc)
    else if c = (',') ∧ inQuotes = false then
      finalizeCell acc.reverse :: parseCSVLineAux rest inQuotes []
    else parseCSVLineAux rest inQuotes (c :: acc)

/-- Robustly parses a CSV line handling quotes. -/
def parseCSVLine (line : String) : List String := parseCSVLineAux line.data false []

/-- Tolerant CSV parsing: split lines, drop blank lines, parse each line,
and right-pad rows shorter than the first row with empty strings. -/
def parseCSV (content : String) : ParseResult :=
  let lines := (splitLinesJS content).filter (fun line => jsTrim line != (""))
  if lines.length = 0 then { headers := [], data := [] }
  else
    let data := lines.map parseCSVLine
    let headerLength := (data.headD []).length
    let normalizedData := data.map (fun row =>
      if row.length < headerLength then row ++ List.replicate (headerLength - row.length) ("")
      else row)
    { headers := normalizedData.headD [], data := normalizedData }

/-! ### Date synthesis -/

/-- Days since 1970-01-01 of a civil date with month in `1..12`
(the standard civil-from-days algorithm, floor division throughout). -/
def daysFromCivil (y m d : Int) : Int :=
  let yy := if m ≤ 2 then y - 1 else y
  let era := yy.ediv 400
  let yoe := yy - era * 400
  let doy := (153 * (if m > 2 then m - 3 else m + 9) + 2).ediv 5 + d - 1
  let doe := yoe * 365 + yoe.ediv 4 - yoe.ediv 100 + doy
  era * 146097 + doe - 719468

/-- Civil date `(year, month, day)` of a day number (inverse of
`daysFromCivil`). -/
def civilFromDays (z0 : Int) : Int × Int × Int :=
  let z := z0 + 719468
  let era := z.ediv 146097
  let doe := z - era * 146097
  let yoe := (doe - doe.ediv 1460 + doe.ediv 36524 - doe.ediv 146096).ediv 365
  let y := yoe + era * 400
  let doy := doe - (365 * yoe + yoe.ediv 4 - yoe.ediv 100)
  let mp := (5 * doy + 2).ediv 153
  let d := doy - (153 * mp + 2).ediv 5 + 1
  let m := if mp < 10 then mp + 3 else mp - 9
  (if m ≤ 2 then y + 1 else y, m, d)

/-- JavaScript `Date.prototype.getDay`: 0 = Sunday … 6 = Saturday
(1970-01-01 was a Thursday, day value 4). -/
def weekdayOf (z : Int) : Int := (z + 4).emod 7

/-- `String(n).padStart(2, zeroChar)`. -/
def pad2 (n : Int) : String :=
  let s := intToDecString n
  if s.length < 2 then ("0") ++ s else s

/-- Format a day number as `dd/mm/yyyy`. -/
def formatDDMMYYYY (z : Int) : String :=
  let c := civilFromDays z
  pad2 c.2.2 ++ ("/") ++ pad2 c.2.1 ++ ("/") ++ intToDecString c.1

/-- JavaScript `Number()` restricted to optionally signed integer literals
(the only forms the date strings exercise): the empty or blank string is 0,
a non-numeric string is `none` (`NaN`). -/
def jsNumberInt (s : String) : Option Int :=
  let t := trimChars s.data
  if t.isEmpty then some 0
  else
    let signAndRest : Int × List Char :=
      match t with
      | ('-') :: r => (-1, r)
      | ('+') :: r => (1, r)
      | r => (1, r)
    if signAndRest.2 ≠ [] ∧ signAndRest.2.all Char.isDigit then
      some (signAndRest.1 * (digitsVal signAndRest.2 : Int))
    else none

/-- Day number of `new Date(year, month - 1, day)`: the JavaScript `Date`
constructor normalises out-of-range month and day values by carrying. -/
def jsDateDays (year month day : Int) : Int :=
  let totalMonths := year * 12 + (month - 1)
  let ny := totalMonths.ediv 12
  let nm := totalMonths.emod 12 + 1
  daysFromCivil ny nm 1 + (day - 1)

/-- Working days (Monday–Friday) from the parsed start date through `today`
inclusive, formatted `dd/mm/yyyy`; degraded cases return a single date.
`today` is the ambient `new Date()` at local midnight, as a day number. -/
def getWorkingDaysFromStartToToday (startDateStr : String) (today : Int) : List String :=
  let parts := (splitOnChar ('-') startDateStr).map jsNumberInt
  if parts.length ≠ 3 then [startDateStr]
  else
    match parts with
    | [some sYear, some sMonth, some sDay] =>
      let start := jsDateDays sYear sMonth sDay
      if start > today then [formatDDMMYYYY start]
      else
        let days := (((List.range (today - start + 1).toNat).map
            (fun k => start + (k : Int))).filter
            (fun z => decide (weekdayOf z ≠ 0 ∧ weekdayOf z ≠ 6))).map formatDDMMYYYY
        if days.length > 0 then days else [formatDDMMYYYY start]
    | _ => [("NaN/NaN/NaN")]

/-! ### Header location and assignment extraction -/

/-- The fixed header markers searched for. -/
def potentialHeaders : List String := [("Student Name"), ("学生姓名"), ("姓名"), ("Name")]

/-- Index of the first of the first twenty rows whose first cell contains a
header marker; row 0 if none matches. -/
def findHeaderRowIndex (data : List (List String)) : Nat :=
  match (data.take 20).findIdx? (fun row =>
      potentialHeaders.any (fun h => chContains ((jsTrim (row.headD (""))).data) h.data)) with
  | some i => i
  | none => 0

/-- `maxMarks.replace(/[^\d.]/g, emptyStr)`: keep only digits and points. -/
def cleanNonNumeric (s : String) : String :=
  String.mk (s.data.filter (fun c => c.isDigit || c == ('.')))

/-- The valid-assignment test of both passes: a non-empty header cell and a
max-marks cell that, cleaned, parses as a number. -/
def isValidAssignmentCol (headerRow maxMarksRow : List String) (i : Nat) : Prop :=
  headerRow.getD i ("") ≠ ("") ∧
  (jsParseFloat (cleanNonNumeric (maxMarksRow.getD i ("")))).isSome = true ∧
  cleanNonNumeric (maxMarksRow.getD i ("")) ≠ ("")

instance (headerRow maxMarksRow : List String) (i : Nat) :
    Decidable (isValidAssignmentCol headerRow maxMarksRow i) := by
  unfold isValidAssignmentCol; infer_instance

/-- The valid assignments, scanning columns from index 1. -/
def validAssignmentsFrom (headerRow maxMarksRow : List String) : List ProcessedAssignment :=
  ((List.range headerRow.length).drop 1).filterMap (fun i =>
    if isValidAssignmentCol headerRow maxMarksRow i then
      some { name := headerRow.getD i ("")
           , totalMarks := cleanNonNumeric (maxMarksRow.getD i (""))
           , originalIndex := i }
    else none)

/-- The valid assignment column indices (the discovery pass's copy of the
same column filter). -/
def validIndicesFrom (headerRow maxMarksRow : List String) : List Nat :=
  ((List.range headerRow.length).drop 1).filter (fun i =>
    decide (isValidAssignmentCol headerRow maxMarksRow i))

/-! ### Discovery pass (`getUniqueNonNumericMarks`) -/

/-- `Set.add` followed by insertion-ordered enumeration: append if absent. -/
def insertUniq (l : List String) (x : String) : List String :=
  if x ∈ l then l else l ++ [x]

/-- Scans the parsed data for non-numeric values in the assignment columns
and returns the distinct values in first-appearance order. -/
def getUniqueNonNumericMarks (parsedData : ParseResult) : List String :=
  let data := parsedData.data
  if data.length < 2 then []
  else
    let headerIdx := findHeaderRowIndex data
    if data.length ≤ headerIdx + 1 then []
    else
      let headerRow := data.getD headerIdx []
      let maxMarksRow := data.getD (headerIdx + 1) []
      let validIndices := validIndicesFrom headerRow maxMarksRow
      let studentRows := data.drop (headerIdx + 3)
      let candidates := studentRows.flatMap (fun row =>
        let studentName := row.headD ("")
        if studentName = ("") ∨ chStartsWith studentName.data ("---".data) then []
        else validIndices.filterMap (fun index =>
          let raw := jsTrim (row.getD index (""))
          if raw = jsTrim (headerRow.getD index ("")) then none
          else if raw = ("-") ∨ raw = ("成绩类别") ∨ raw = ("Category") then none
          else if raw ≠ ("") ∧ (jsParseFloat raw).isNone then some raw
          else none))
      candidates.foldl insertUniq []

/-! ### Column classification -/

/-- The standard letter grades. -/
def STANDARD_GRADES : List String :=
  [("A*"), ("A"), ("B"), ("C"), ("D"), ("E"), ("F"), ("G"), ("U")]

/-- Column type: pure status column or mixed (graded) column. -/
inductive ColType where
  | PURE_STATUS
  | MIXED
deriving DecidableEq

/-- Per-column statistics. -/
structure ColumnStat where
  type : ColType
  average : JsNum
deriving DecidableEq

/-- Classification accumulator. -/
structure ColAcc where
  hasNumeric : Bool
  hasGrade : Bool
  vals : List JsNum
deriving DecidableEq

/-- The contribution a grade-mapping entry makes to the running average:
`(percentage / 100) * totalMarks`. -/
def mappedScore (mapped : String) (totalMarksNum : JsNum) : JsNum :=
  (((jsParseFloat mapped).getD (JsNum.ofInt 0)).div (JsNum.ofInt 100)).mul totalMarksNum

/-- One student row's effect on a column's classification accumulator. -/
def classifyStep (gm : GradeMapping) (a : ProcessedAssignment) (totalMarksNum : JsNum)
    (acc : ColAcc) (row : List String) : ColAcc :=
  let studentName := row.headD ("")
  if studentName = ("") ∨ chStartsWith studentName.data ("---".data) then acc
  else
    let raw := jsTrim (row.getD a.originalIndex (""))
    if raw = ("") then acc
    else if raw = jsTrim a.name then acc
    else if raw = ("-") then acc
    else
      match jsParseFloat raw with
      | some v => { hasNumeric := true, hasGrade := acc.hasGrade, vals := acc.vals ++ [v] }
      | none =>
        if STANDARD_GRADES.contains (jsToUpper raw) then
          match gmLookup gm (jsToUpper raw) with
          | some mapped =>
            if mapped ≠ ("") ∧ (jsParseFloat mapped).isSome then
              { hasNumeric := acc.hasNumeric, hasGrade := true
              , vals := acc.vals ++ [mappedScore mapped totalMarksNum] }
            else { acc with hasGrade := true }
          | none => { acc with hasGrade := true }
        else
          match gmLookup gm (jsToUpper raw) with
          | some mapped =>
            if mapped ≠ ("") ∧ (jsParseFloat mapped).isSome then
              { acc with vals := acc.vals ++ [mappedScore mapped totalMarksNum] }
            else acc
          | none => acc

/-- Pre-analysis of one assignment column: `MIXED` when a numeric value or a
standard grade was seen, otherwise `PURE_STATUS`; the average of the
accumulated numeric-equivalent values (0 when none). -/
def computeColumnStat (gm : GradeMapping) (studentDataRows : List (List String))
    (a : ProcessedAssignment) : ColumnStat :=
  let totalMarksNum := (jsParseFloat a.totalMarks).getD (JsNum.ofInt 0)
  let acc := studentDataRows.foldl (classifyStep gm a totalMarksNum)
    { hasNumeric := false, hasGrade := false, vals := [] }
  { type := if acc.hasNumeric || acc.hasGrade then ColType.MIXED else ColType.PURE_STATUS
  , average :=
      if acc.vals.length > 0 then (JsNum.sumList acc.vals).div (JsNum.ofInt acc.vals.length)
      else JsNum.ofInt 0 }

/-! ### Mark resolution -/

/-- The per-cell mark resolution of the conversion: explicit `-` marker,
column-type-specific status rules, literal number, grade-mapping lookup,
else blank.  `rawMark` arrives already trimmed. -/
def resolveMark (gm : GradeMapping) (stats : ColumnStat) (totalMarksNum : JsNum)
    (rawMark : String) : String :=
  if rawMark = ("-") then ("")
  else
    let rule : Option String :=
      match stats.type with
      | ColType.PURE_STATUS =>
        if rawMark = ("已提交") then some (toFixed1 totalMarksNum)
        else if rawMark = ("未提交") then some ("0")
        else if rawMark = ("已补交") then
          some (toFixed1 (((JsNum.ofInt 60).div (JsNum.ofInt 100)).mul totalMarksNum))
        else none
      | ColType.MIXED =>
        if rawMark = ("未提交") then some ("0")
        else if rawMark = ("已提交") then some (jsOrEmpty (toFixed1 stats.average) ("0"))
        else none
    match rule with
    | some v => jsReplaceDotZeroSuffix v
    | none =>
      match jsParseFloat rawMark with
      | some numericMark => jsReplaceDotZeroSuffix (toFixed1 numericMark)
      | none =>
        match gmLookup gm (jsToUpper rawMark) with
        | some mapped =>
          if mapped ≠ ("") ∧ (jsParseFloat mapped).isSome then
            jsReplaceDotZeroSuffix (toFixed1 (mappedScore mapped totalMarksNum))
          else ("")
        | none => ("")

/-! ### The conversion pipeline -/

/-- The `columnStats` object: one write per valid assignment, in order. -/
def buildColumnStats (gm : GradeMapping) (studentDataRows : List (List String))
    (validAssignments : List ProcessedAssignment) : List (String × ColumnStat) :=
  validAssignments.foldl
    (fun acc a => (a.name, computeColumnStat gm studentDataRows a) :: acc) []

/-- The `assignmentDates` object: the k-th valid assignment receives the
working day selected by the k-th random draw. -/
def buildAssignmentDates (validAssignments : List ProcessedAssignment)
    (workingDays : List String) (rand : Nat → Nat) : List (String × String) :=
  validAssignments.enum.foldl
    (fun acc p => (p.2.name, workingDays.getD (rand p.1 % workingDays.length) ("")) :: acc) []

/-- The fallback `dd/mm/yyyy` rendering of the selected `yyyy-mm-dd` date. -/
def fallbackDateOf (selectedDate : String) : String :=
  let dateParts := splitOnChar ('-') selectedDate
  if dateParts.length = 3 then
    dateParts.getD 2 ("") ++ ("/") ++ dateParts.getD 1 ("") ++ ("/") ++ dateParts.getD 0 ("")
  else selectedDate

/-- The full conversion: locate the header row, extract valid assignments,
classify columns, then emit one record per qualifying student and
assignment (skipping cells equal to the assignment name). -/
def processClassInToGradebook (parsedData : ParseResult) (selectedDate : String)
    (gm : GradeMapping) (today : Int) (rand : Nat → Nat) : List TargetRow :=
  let data := parsedData.data
  let headerIdx := findHeaderRowIndex data
  if data.length < headerIdx + 2 then []
  else
    let headerRow := data.getD headerIdx []
    let maxMarksRow := data.getD (headerIdx + 1) []
    let studentDataRows := data.drop (headerIdx + 3)
    let validAssignments := validAssignmentsFrom headerRow maxMarksRow
    let workingDays := getWorkingDaysFromStartToToday selectedDate today
    let assignmentDates := buildAssignmentDates validAssignments workingDays rand
    let fallbackDate := fallbackDateOf selectedDate
    let columnStats := buildColumnStats gm studentDataRows validAssignments
    studentDataRows.flatMap (fun row =>
      let studentName := row.headD ("")
      if studentName = ("") ∨ chStartsWith studentName.data ("---".data) then []
      else
        validAssignments.filterMap (fun a =>
          let rawMark := jsTrim (row.getD a.originalIndex (""))
          if rawMark = jsTrim a.name then none
          else
            let stats := (dictLookup columnStats a.name).getD
              { type := ColType.PURE_STATUS, average := JsNum.ofInt 0 }
            let totalMarksNum := (jsParseFloat a.totalMarks).getD (JsNum.ofInt 0)
            some { StudentName := studentName
                 , AssignmentName := a.name
                 , AssignmentDate := jsOrEmptyOpt (dictLookup assignmentDates a.name) fallbackDate
                 , Category := ("Coursework")
                 , Marks := resolveMark gm stats totalMarksNum rawMark
                 , TotalMarksPossible := toFixed1 totalMarksNum }))

/-! ### Output serialisation (`generateCSVContent`) -/

/-- The fixed header line field list. -/
def csvHeaders : List String :=
  [("Student Name"), ("Assignment Name"), ("Assignment Date"), ("Category"),
   ("Marks"), ("Total Marks Possible")]

/-- Serialise the records: student name, assignment name (internal quotes
doubled) and category are wrapped in double quotes; the date, mark and
total are emitted bare; an empty mark stays an empty field. -/
def generateCSVContent (rows : List TargetRow) : String :=
  let csvRows := rows.map (fun row =>
    [("\"") ++ row.StudentName ++ ("\""),
     ("\"") ++ doubleQuoteStr row.AssignmentName ++ ("\""),
     row.AssignmentDate,
     ("\"") ++ row.Category ++ ("\""),
     if row.Marks = ("") then ("") else row.Marks,
     row.TotalMarksPossible])
  joinWith ("\n") (joinWith (",") csvHeaders :: csvRows.map (fun r => joinWith (",") r))

/-! ### Application-shell merge of discovered statuses (`handleFileSelect`) -/

/-- The merge in the application shell: for each discovered status add its
uppercase form with value `"0"` unless the key already exists. -/
def mergeFoundStatuses (prev : GradeMapping) (foundStatuses : List String) : GradeMapping :=
  foundStatuses.foldl (fun next status =>
    let key := jsToUpper status
    if gmHas next key then next else next ++ [(key, ("0"))]) prev

/-! ### Statement-support definitions -/

/-- Header row index of a parsed table. -/
def headerIdxOf (pd : ParseResult) : Nat := findHeaderRowIndex pd.data

/-- The student data rows of a parsed table (three rows below the header:
header, max-marks and category rows are skipped). -/
def studentRowsOf (pd : ParseResult) : List (List String) :=
  pd.data.drop (headerIdxOf pd + 3)

/-- A row qualifies as a student row when its first cell is non-empty and
does not start with `---`. -/
def qualifiesRow (row : List String) : Bool :=
  decide (row.headD ("") ≠ ("") ∧ chStartsWith (row.headD ("")).data ("---".data) = false)

/-- The qualifying student rows of a parsed table. -/
def qualifyingRowsOf (pd : ParseResult) : List (List String) :=
  (studentRowsOf pd).filter qualifiesRow

/-- The valid assignments of a parsed table (empty when the table is too
short for a max-marks row, as in the conversion). -/
def validAssignmentsOf (pd : ParseResult) : List ProcessedAssignment :=
  if pd.data.length < headerIdxOf pd + 2 then []
  else validAssignmentsFrom (pd.data.getD (headerIdxOf pd) [])
    (pd.data.getD (headerIdxOf pd + 1) [])

/-- The `columnStats` object of a parsed table. -/
def columnStatsMapOf (gm : GradeMapping) (pd : ParseResult) : List (String × ColumnStat) :=
  buildColumnStats gm (studentRowsOf pd) (validAssignmentsOf pd)

/-- The `assignmentDates` object of a parsed table. -/
def assignmentDatesMapOf (pd : ParseResult) (selectedDate : String) (today : Int)
    (rand : Nat → Nat) : List (String × String) :=
  buildAssignmentDates (validAssignmentsOf pd)
    (getWorkingDaysFromStartToToday selectedDate today) rand

/-- Mapping-independent evidence that a cell makes its column `MIXED`: a
qualifying row whose trimmed cell in the column is non-empty, differs from
the assignment's trimmed name and from `-`, and parses as a number or is,
uppercased, a standard grade letter. -/
def evidenceCell (a : ProcessedAssignment) (row : List String) : Bool :=
  decide (qualifiesRow row = true ∧
    jsTrim (row.getD a.originalIndex ("")) ≠ ("") ∧
    jsTrim (row.getD a.originalIndex ("")) ≠ jsTrim a.name ∧
    jsTrim (row.getD a.originalIndex ("")) ≠ ("-") ∧
    ((jsParseFloat (jsTrim (row.getD a.originalIndex ("")))).isSome = true ∨
     STANDARD_GRADES.contains (jsToUpper (jsTrim (row.getD a.originalIndex ("")))) = true))

/-- Quote a field for emission the way the claimed emitter contract quotes
every string field: wrap in double quotes and double internal quotes. -/
def quoteDoubledField (s : String) : String := ("\"") ++ doubleQuoteStr s ++ ("\"")

/-- The output line the original emitter claim describes: every string
field quoted with internal quotes doubled, date bare, empty mark empty. -/
def claimedLineSpec (row : TargetRow) : String :=
  joinWith (",")
    [quoteDoubledField row.StudentName,
     quoteDoubledField row.AssignmentName,
     row.AssignmentDate,
     quoteDoubledField row.Category,
     if row.Marks = ("") then ("") else row.Marks,
     row.TotalMarksPossible]

/-- Modelled from the amended claim's words: the line actually emitted —
student name and category wrapped in quotes as-is, assignment name wrapped
with internal quotes doubled, date and total bare, mark bare (empty mark
an empty field). -/
def amendedLineSpec (row : TargetRow) : String :=
  joinWith (",")
    [("\"") ++ row.StudentName ++ ("\""),
     quoteDoubledField row.AssignmentName,
     row.AssignmentDate,
     ("\"") ++ row.Category ++ ("\""),
     row.Marks,
     row.TotalMarksPossible]

/-! ## Helper lemmas -/

/-- Digit characters are digits. -/
theorem digitChar_isDigit (k : Nat) (h : k < 10) : (digitChar k).isDigit = true := by
  interval_cases k <;> decide

/-- The fuelled digit rendering is never empty. -/
theorem natToDecCharsAux_ne_nil (fuel n : Nat) (h : n < fuel) :
    natToDecCharsAux fuel n ≠ [] := by
  cases fuel with
  | zero => omega
  | succ f =>
    by_cases h10 : n < 10 <;> simp [natToDecCharsAux, h10]

/-- Every rendered character is a digit. -/
theorem natToDecCharsAux_digits (fuel : Nat) :
    ∀ (n : Nat) (c : Char), c ∈ natToDecCharsAux fuel n → c.isDigit = true := by
  induction fuel with
  | zero => intro n c hc; simp [natToDecCharsAux] at hc
  | succ f ih =>
    intro n c hc
    by_cases h10 : n < 10
    · simp [natToDecCharsAux, h10] at hc
      subst hc
      exact digitChar_isDigit n h10
    · simp [natToDecCharsAux, h10] at hc
      rcases hc with hc | hc
      · exact ih (n / 10) c hc
      · subst hc
        exact digitChar_isDigit (n % 10) (Nat.mod_lt n (by omega))

/-- The digit rendering of a natural number is never empty. -/
theorem natToDecChars_ne_nil (n : Nat) : natToDecChars n ≠ [] :=
  natToDecCharsAux_ne_nil (n + 1) n (Nat.lt_succ_self n)

/-- Every character of the digit rendering is a digit. -/
theorem natToDecChars_digits (n : Nat) (c : Char) (hc : c ∈ natToDecChars n) :
    c.isDigit = true := natToDecCharsAux_digits (n + 1) n c hc

/-- The digit rendering of a value below ten is that single digit. -/
theorem natToDecChars_single (n : Nat) (h : n < 10) : natToDecChars n = [digitChar n] := by
  simp [natToDecChars, natToDecCharsAux, h]

/-- `toFixed1Chars` is never the empty list. -/
theorem toFixed1Chars_ne_nil (n : Int) : toFixed1Chars n ≠ [] := by
  unfold toFixed1Chars
  simp

/-- The exponential rendering is never the empty string. -/
theorem jsBigToString_ne_empty (q : JsRat) : jsBigToString q ≠ ("") := by
  unfold jsBigToString
  intro h
  have h2 := congrArg String.data h
  simp at h2

/-- `toFixed1` never returns the empty string. -/
theorem toFixed1_ne_empty (x : JsNum) : toFixed1 x ≠ ("") := by
  cases x with
  | nan => decide
  | inf neg => cases neg <;> decide
  | fin q =>
    simp only [toFixed1]
    by_cases hbig : (10 : Int) ^ 21 * q.den ≤ (q.num.natAbs : Int)
    · rw [if_pos hbig]
      exact jsBigToString_ne_empty q
    · rw [if_neg hbig]
      intro h
      have h2 := congrArg String.data h
      exact toFixed1Chars_ne_nil _ h2

/-- The body check of `oneDecimalPlaceChars` succeeds on a digit string,
a point and a final digit. -/
theorem oneDecimalPlaceChars_body (intPart : List Char) (d : Char)
    (hint : intPart ≠ []) (hintd : ∀ c ∈ intPart, c.isDigit = true)
    (hd : d.isDigit = true) :
    (match (intPart ++ [('.')] ++ [d]).reverse with
     | e :: f :: rest => e.isDigit && (f = ('.')) && !rest.isEmpty && rest.all Char.isDigit
     | _ => false) = true := by
  rw [show (intPart ++ [('.')] ++ [d]).reverse = d :: ('.') :: intPart.reverse by
    simp [List.reverse_append]]
  have h1 : intPart.reverse.isEmpty = false := by
    cases hcase : intPart.reverse with
    | nil => exact absurd (by simpa using hcase) hint
    | cons x xs => rfl
  have h2 : intPart.reverse.all Char.isDigit = true := by
    rw [List.all_eq_true]
    intro c hc
    exact hintd c (List.mem_reverse.mp hc)
  simp [hd, h1, h2]

/-- `oneDecimalPlaceChars` accepts every rendering `toFixed1Chars` makes. -/
theorem oneDecimalPlaceChars_toFixed1Chars (n : Int) :
    oneDecimalPlaceChars (toFixed1Chars n) = true := by
  unfold toFixed1Chars
  generalize n.natAbs = a
  have hfrac : natToDecChars (a % 10) = [digitChar (a % 10)] :=
    natToDecChars_single (a % 10) (Nat.mod_lt a (by omega))
  have hdig : (digitChar (a % 10)).isDigit = true :=
    digitChar_isDigit (a % 10) (Nat.mod_lt a (by omega))
  have hint : natToDecChars (a / 10) ≠ [] := natToDecChars_ne_nil (a / 10)
  have hintd : ∀ c ∈ natToDecChars (a / 10), c.isDigit = true :=
    fun c hc => natToDecChars_digits (a / 10) c hc
  rw [hfrac]
  by_cases hneg : n < 0
  · rw [if_pos hneg]
    show oneDecimalPlaceChars (('-') :: (natToDecChars (a / 10) ++ [('.')] ++ [digitChar (a % 10)])) = true
    unfold oneDecimalPlaceChars
    simp only [List.headD, if_pos rfl, List.tail_cons]
    exact oneDecimalPlaceChars_body _ _ hint hintd hdig
  · rw [if_neg hneg]
    show oneDecimalPlaceChars ([] ++ natToDecChars (a / 10) ++ [('.')] ++ [digitChar (a % 10)]) = true
    unfold oneDecimalPlaceChars
    rw [List.nil_append]
    have hne : (natToDecChars (a / 10) ++ [('.')] ++ [digitChar (a % 10)]).headD (' ') ≠ ('-') := by
      cases hcase : natToDecChars (a / 10) with
      | nil => exact absurd hcase hint
      | cons c t =>
        have hc : c ∈ natToDecChars (a / 10) := by rw [hcase]; exact List.mem_cons_self c t
        have hd2 := hintd c hc
        intro hcontra
        simp only [List.cons_append, List.headD_cons] at hcontra
        rw [hcontra] at hd2
        simp at hd2
    rw [if_neg hne]
    exact oneDecimalPlaceChars_body _ _ hint hintd hdig

/-- Outside the `ToString` escape branch (finite value of magnitude below
`10^21`), `toFixed1` renders exactly one digit after the decimal point. -/
theorem oneDecimalPlace_toFixed1 (x : JsNum) (h : toFixedBig x = false) :
    oneDecimalPlace (toFixed1 x) = true := by
  cases x with
  | nan => simp [toFixedBig] at h
  | inf neg => simp [toFixedBig] at h
  | fin q =>
    simp only [toFixedBig, decide_eq_false_iff_not] at h
    simp only [toFixed1]
    rw [if_neg h]
    exact oneDecimalPlaceChars_toFixed1Chars _

/-- The source's suffix replacement of `.0` by `.0` is the identity. -/
theorem jsReplaceDotZeroSuffix_eq (s : String) : jsReplaceDotZeroSuffix s = s := by
  unfold jsReplaceDotZeroSuffix
  split
  next rest h =>
    have hd : s.data = rest.reverse ++ [('.'), ('0')] := by
      have h2 := congrArg List.reverse h
      simpa using h2
    cases s with
    | mk d =>
      simp only at hd
      rw [show String.mk (rest.reverse ++ [('.'), ('0')]) = String.mk d from by rw [hd]]
  next => rfl

/-- `jsOrEmpty` of a `toFixed1` value keeps that value. -/
theorem jsOrEmpty_toFixed1 (x : JsNum) (b : String) : jsOrEmpty (toFixed1 x) b = toFixed1 x := by
  unfold jsOrEmpty
  rw [if_neg (toFixed1_ne_empty x)]

/-- Length of a `filterMap` equals the count of inputs mapped to `some`. -/
theorem length_filterMap_isSome {α β : Type} (f : α → Option β) (l : List α) :
    (l.filterMap f).length = l.countP (fun a => (f a).isSome) := by
  induction l with
  | nil => rfl
  | cons a t ih =>
    cases h : f a <;>
      simp [List.filterMap_cons, h, List.countP_cons, ih, Nat.add_comm]

/-- Summing a mapped filter equals summing with zeros at filtered spots. -/
theorem sum_map_filter_eq {α : Type} (p : α → Bool) (f : α → Nat) (l : List α) :
    ((l.filter p).map f).sum = (l.map (fun x => if p x then f x else 0)).sum := by
  induction l with
  | nil => rfl
  | cons a t ih =>
    by_cases h : p a = true
    · simp [List.filter_cons, h, ih]
    · simp only [Bool.not_eq_true] at h
      simp [List.filter_cons, h, ih]

/-- Lookup after a cons write. -/
theorem dictLookup_cons {β : Type} (p : String × β) (l : List (String × β)) (k : String) :
    dictLookup (p :: l) k = if p.1 == k then some p.2 else dictLookup l k := by
  unfold dictLookup
  rw [List.find?_cons]
  cases h : (p.1 == k) <;> simp [h]

/-- Folding writes that prepend realises last-write-wins lookup: the lookup
of `k` is the value of the last pair with key `k`, falling back to the
initial dictionary. -/
theorem dictLookup_prepend_fold {β : Type} (l : List (String × β))
    (init : List (String × β)) (k : String) :
    dictLookup (l.foldl (fun acc p => p :: acc) init) k =
      (match (l.filter (fun p => p.1 == k)).getLast? with
       | some p => some p.2
       | none => dictLookup init k) := by
  induction l generalizing init with
  | nil => rfl
  | cons a t ih =>
    simp only [List.foldl_cons]
    rw [ih]
    by_cases h : (a.1 == k) = true
    · rw [List.filter_cons, if_pos h]
      cases hl : (t.filter (fun p => p.1 == k)).getLast? with
      | some p =>
        rw [List.getLast?_cons, hl]
        simp
      | none =>
        rw [List.getLast?_cons, hl]
        simp [dictLookup_cons, h]
    · rw [List.filter_cons, if_neg h]
      cases hl : (t.filter (fun p => p.1 == k)).getLast? with
      | some p => simp
      | none => simp [dictLookup_cons, h]

/-- `getLast?` commutes with `map`. -/
theorem getLast?_map {α β : Type} (f : α → β) (l : List α) :
    (l.map f).getLast? = l.getLast?.map f := by
  induction l with
  | nil => rfl
  | cons a t ih =>
    rw [List.map_cons, List.getLast?_cons, List.getLast?_cons, ih]
    cases ht : t.getLast? <;> simp

/-- Membership in `insertUniq`. -/
theorem mem_insertUniq (l : List String) (x y : String) :
    y ∈ insertUniq l x ↔ y ∈ l ∨ y = x := by
  unfold insertUniq
  by_cases h : x ∈ l
  · rw [if_pos h]
    constructor
    · exact fun hy => Or.inl hy
    · rintro (hy | hy)
      · exact hy
      · rw [hy]; exact h
  · rw [if_neg h]
    simp

/-- Membership in a fold of `insertUniq`. -/
theorem mem_foldl_insertUniq (l : List String) (acc : List String) (x : String) :
    x ∈ l.foldl insertUniq acc ↔ x ∈ acc ∨ x ∈ l := by
  induction l generalizing acc with
  | nil => simp
  | cons a t ih =>
    rw [List.foldl_cons, ih, mem_insertUniq]
    constructor
    · rintro ((h | h) | h)
      · exact Or.inl h
      · exact Or.inr (by rw [h]; exact List.mem_cons_self a t)
      · exact Or.inr (List.mem_cons_of_mem a h)
    · rintro (h | h)
      · exact Or.inl (Or.inl h)
      · rcases List.mem_cons.mp h with h | h
        · exact Or.inl (Or.inr h)
        · exact Or.inr h

/-- `insertUniq` preserves freedom from duplicates. -/
theorem nodup_insertUniq (l : List String) (x : String) (h : l.Nodup) :
    (insertUniq l x).Nodup := by
  unfold insertUniq
  by_cases hx : x ∈ l
  · rw [if_pos hx]; exact h
  · rw [if_neg hx]
    simp [List.nodup_append, h, hx]

/-- A fold of `insertUniq` preserves freedom from duplicates. -/
theorem nodup_foldl_insertUniq (l : List String) (acc : List String) (h : acc.Nodup) :
    (l.foldl insertUniq acc).Nodup := by
  induction l generalizing acc with
  | nil => exact h
  | cons a t ih => exact ih (insertUniq acc a) (nodup_insertUniq acc a h)

/-- Collapsing a doubled quote pair at the front. -/
theorem collapseDoubledQuotes_two_quotes (t : List Char) :
    collapseDoubledQuotes (('"') :: ('"') :: t) = ('"') :: collapseDoubledQuotes t := by
  simp [collapseDoubledQuotes]

/-- Collapsing past a non-quote head. -/
theorem collapseDoubledQuotes_cons_ne (c : Char) (rest : List Char) (h : c ≠ ('"')) :
    collapseDoubledQuotes (c :: rest) = c :: collapseDoubledQuotes rest := by
  cases rest with
  | nil => simp [collapseDoubledQuotes]
  | cons d t => simp [collapseDoubledQuotes, h]

/-- Collapsing doubled quotes undoes quote doubling. -/
theorem collapseDoubledQuotes_doubleQuoteChars (cs : List Char) :
    collapseDoubledQuotes (doubleQuoteChars cs) = cs := by
  induction cs with
  | nil => rfl
  | cons c t ih =>
    by_cases h : c = ('"')
    · subst h
      rw [show doubleQuoteChars (('"') :: t) = ('"') :: ('"') :: doubleQuoteChars t by
        simp [doubleQuoteChars]]
      rw [collapseDoubledQuotes_two_quotes, ih]
    · rw [show doubleQuoteChars (c :: t) = c :: doubleQuoteChars t by
        simp [doubleQuoteChars, h]]
      rw [collapseDoubledQuotes_cons_ne c _ h, ih]

/-- While the scanner is inside quotes, doubled text up to the closing quote
is consumed into the current cell: no comma can end the cell. -/
theorem parseCSVLineAux_doubled (cs : List Char) (acc : List Char) :
    parseCSVLineAux (doubleQuoteChars cs ++ [('"')]) true acc =
      [finalizeCell (acc.reverse ++ (doubleQuoteChars cs ++ [('"')]))] := by
  induction cs generalizing acc with
  | nil =>
    show parseCSVLineAux [('"')] true acc = _
    rw [show parseCSVLineAux [('"')] true acc
        = parseCSVLineAux [] (!true) (('"') :: acc) by simp [parseCSVLineAux]]
    simp [parseCSVLineAux, doubleQuoteChars]
  | cons c t ih =>
    by_cases h : c = ('"')
    · subst h
      rw [show doubleQuoteChars (('"') :: t) = ('"') :: ('"') :: doubleQuoteChars t by
        simp [doubleQuoteChars]]
      rw [show ((('"') :: ('"') :: doubleQuoteChars t) ++ [('"')])
          = ('"') :: (('"') :: (doubleQuoteChars t ++ [('"')])) by simp]
      rw [show parseCSVLineAux (('"') :: (('"') :: (doubleQuoteChars t ++ [('"')]))) true acc
          = parseCSVLineAux (('"') :: (doubleQuoteChars t ++ [('"')])) false (('"') :: acc) by
        simp [parseCSVLineAux]]
      rw [show parseCSVLineAux (('"') :: (doubleQuoteChars t ++ [('"')])) false (('"') :: acc)
          = parseCSVLineAux (doubleQuoteChars t ++ [('"')]) true (('"') :: ('"') :: acc) by
        simp [parseCSVLineAux]]
      rw [ih]
      congr 1
      simp
    · rw [show doubleQuoteChars (c :: t) = c :: doubleQuoteChars t by
        simp [doubleQuoteChars, h]]
      rw [show ((c :: doubleQuoteChars t) ++ [('"')]) = c :: (doubleQuoteChars t ++ [('"')]) by simp]
      rw [show parseCSVLineAux (c :: (doubleQuoteChars t ++ [('"')])) true acc
          = parseCSVLineAux (doubleQuoteChars t ++ [('"')]) true (c :: acc) by
        simp [parseCSVLineAux, h]]
      rw [ih]
      congr 1
      simp

/-! ## Claim C9 -/

/-- C9 (amended): a cell value that is its own trim — in particular any
trimmed value containing commas or quotes — emitted with the quote-doubling
field quoting of the emitter (wrap in double quotes, double internal
quotes), re-parses through `parseCSVLine` to exactly that value.  (Values
with leading or trailing whitespace are trimmed by the parser, and fields
emitted without quote doubling do not round-trip values containing
quotes, so the original universal claim fails; see the counterexample.) -/
theorem claim_C9_theorem (s : String) (h : jsTrim s = s) :
    parseCSVLine (quoteDoubledField s) = [s] := by
  unfold parseCSVLine quoteDoubledField
  have h1 : (("\"") ++ doubleQuoteStr s ++ ("\"")).data
      = ('"') :: (doubleQuoteChars s.data ++ [('"')]) := rfl
  rw [h1]
  rw [show parseCSVLineAux (('"') :: (doubleQuoteChars s.data ++ [('"')])) false []
      = parseCSVLineAux (doubleQuoteChars s.data ++ [('"')]) true [('"')] by
    simp [parseCSVLineAux]]
  rw [parseCSVLineAux_doubled]
  congr 1
  show finalizeCell ([('"')].reverse ++ (doubleQuoteChars s.data ++ [('"')])) = s
  rw [show [('"')].reverse ++ (doubleQuoteChars s.data ++ [('"')])
      = (('"') :: doubleQuoteChars s.data) ++ [('"')] by simp]
  unfold finalizeCell
  rw [show ((('"') :: doubleQuoteChars s.data) ++ [('"')]).head? = some ('"') from rfl]
  rw [List.getLast?_concat]
  simp only [decide_eq_true_eq, if_pos, List.cons_append]
  rw [if_pos (by simp)]
  rw [show ((('"') :: (doubleQuoteChars s.data ++ [('"')])).drop 1).dropLast
      = doubleQuoteChars s.data by simp [List.dropLast_concat]]
  rw [collapseDoubledQuotes_doubleQuoteChars]
  exact h

/-- C9 witness: the trimmed value `a,b` round-trips through the
quote-doubling emission and the line parser. -/
theorem claim_C9_witness :
    jsTrim ("a,b") = ("a,b") ∧ parseCSVLine (quoteDoubledField ("a,b")) = [("a,b")] :=
  ⟨by decide, claim_C9_theorem ("a,b") (by decide)⟩

/-- C9 counterexample: the cell value ` a,b` contains a comma, but the
parser applied to its quoted emission returns the trimmed value `a,b`,
not the original cell value, so the claim fails as universally stated. -/
theorem claim_C9_counterexample :
    parseCSVLine (quoteDoubledField (" a,b")) = [("a,b")] ∧ (" a,b") ≠ ("a,b") := by
  constructor
  · decide
  · decide

/-! ## Claim C2 -/

/-- C2: a trimmed raw cell value `已提交` resolves to the assignment's full
totalMarks when the column is classified `PURE_STATUS`, and to the column's
averageScore when the column is classified `MIXED`. -/
theorem claim_C2_theorem (gm : GradeMapping) (stats : ColumnStat) (totalMarksNum : JsNum) :
    resolveMark gm stats totalMarksNum ("已提交") =
      (match stats.type with
       | ColType.PURE_STATUS => toFixed1 totalMarksNum
       | ColType.MIXED => toFixed1 stats.average) := by
  have hd : ("已提交" : String) ≠ ("-") := by decide
  have hw : ("已提交" : String) ≠ ("未提交") := by decide
  cases stats with
  | mk t avg =>
    cases t <;> simp [resolveMark, hd, hw, jsReplaceDotZeroSuffix_eq, jsOrEmpty_toFixed1]

/-! ## Claim C3 -/

/-- `qualifiesRow` is the negation of the skip condition of the scans. -/
theorem qualifiesRow_iff (row : List String) :
    qualifiesRow row = true ↔
      ¬(row.headD ("") = ("") ∨ chStartsWith (row.headD ("")).data ("---".data) = true) := by
  unfold qualifiesRow
  rw [decide_eq_true_eq]
  constructor
  · rintro ⟨h1, h2⟩ (h | h)
    · exact h1 h
    · rw [h2] at h; cases h
  · intro h
    push_neg at h
    exact ⟨h.1, by simpa using h.2⟩

/-- One classification step changes the seen-numeric-or-grade flags exactly
when the row carries mapping-independent evidence. -/
theorem classifyStep_flags (gm : GradeMapping) (a : ProcessedAssignment) (tm : JsNum)
    (acc : ColAcc) (row : List String) :
    ((classifyStep gm a tm acc row).hasNumeric || (classifyStep gm a tm acc row).hasGrade)
      = (acc.hasNumeric || acc.hasGrade || evidenceCell a row) := by
  simp only [classifyStep]
  by_cases h0 : (row.headD ("") = ("") ∨ chStartsWith (row.headD ("")).data ("---".data) = true)
  · rw [if_pos h0]
    have hev : evidenceCell a row = false := by
      unfold evidenceCell
      exact decide_eq_false (fun hc => (qualifiesRow_iff row).mp hc.1 h0)
    rw [hev]
    simp
  · rw [if_neg h0]
    have hq : qualifiesRow row = true := (qualifiesRow_iff row).mpr h0
    by_cases h1 : jsTrim (row.getD a.originalIndex ("")) = ("")
    · rw [if_pos h1]
      have hev : evidenceCell a row = false := by
        unfold evidenceCell
        exact decide_eq_false (fun hc => hc.2.1 h1)
      rw [hev]
      simp
    · rw [if_neg h1]
      by_cases h2 : jsTrim (row.getD a.originalIndex ("")) = jsTrim a.name
      · rw [if_pos h2]
        have hev : evidenceCell a row = false := by
          unfold evidenceCell
          exact decide_eq_false (fun hc => hc.2.2.1 h2)
        rw [hev]
        simp
      · rw [if_neg h2]
        by_cases h3 : jsTrim (row.getD a.originalIndex ("")) = ("-")
        · rw [if_pos h3]
          have hev : evidenceCell a row = false := by
            unfold evidenceCell
            exact decide_eq_false (fun hc => hc.2.2.2.1 h3)
          rw [hev]
          simp
        · rw [if_neg h3]
          cases hpf : jsParseFloat (jsTrim (row.getD a.originalIndex (""))) with
          | some v =>
            have hev : evidenceCell a row = true := by
              unfold evidenceCell
              exact decide_eq_true ⟨hq, h1, h2, h3, Or.inl (by rw [hpf]; rfl)⟩
            rw [hev]
            simp
          | none =>
            by_cases hsg : STANDARD_GRADES.contains (jsToUpper (jsTrim (row.getD a.originalIndex ("")))) = true
            · rw [if_pos hsg]
              have hev : evidenceCell a row = true := by
                unfold evidenceCell
                exact decide_eq_true ⟨hq, h1, h2, h3, Or.inr hsg⟩
              rw [hev]
              cases hlk : gmLookup gm (jsToUpper (jsTrim (row.getD a.originalIndex ("")))) with
              | some m =>
                by_cases hm : (m ≠ ("") ∧ (jsParseFloat m).isSome = true)
                · simp [hm]
                · simp [hm]
              | none => simp
            · rw [if_neg hsg]
              have hev : evidenceCell a row = false := by
                unfold evidenceCell
                refine decide_eq_false (fun hc => ?_)
                rcases hc.2.2.2.2 with h | h
                · rw [hpf] at h; cases h
                · exact hsg h
              rw [hev]
              cases hlk : gmLookup gm (jsToUpper (jsTrim (row.getD a.originalIndex ("")))) with
              | some m =>
                by_cases hm : (m ≠ ("") ∧ (jsParseFloat m).isSome = true)
                · simp [hm]
                · simp [hm]
              | none => simp

/-- Folding classification steps: the final flags record exactly whether
some row carries evidence. -/
theorem classify_fold_flags (gm : GradeMapping) (a : ProcessedAssignment) (tm : JsNum)
    (rows : List (List String)) (acc : ColAcc) :
    (((rows.foldl (classifyStep gm a tm) acc).hasNumeric)
        || ((rows.foldl (classifyStep gm a tm) acc).hasGrade))
      = (acc.hasNumeric || acc.hasGrade || rows.any (evidenceCell a)) := by
  induction rows generalizing acc with
  | nil => simp
  | cons r t ih =>
    rw [List.foldl_cons, ih, List.any_cons, classifyStep_flags]
    cases acc.hasNumeric <;> cases acc.hasGrade <;>
      cases evidenceCell a r <;> cases t.any (evidenceCell a) <;> rfl

/-- C3: an assignment column is classified `MIXED` precisely when some
qualifying student cell — trimmed, skipping empty cells, `-`, and cells
equal to the assignment's own name — parses as a number or is, uppercased,
a standard grade letter; the classification is therefore independent of
the grade mapping, which does not occur on the right-hand side. -/
theorem claim_C3_theorem (gm : GradeMapping) (rows : List (List String))
    (a : ProcessedAssignment) :
    ((computeColumnStat gm rows a).type = ColType.MIXED) ↔
      rows.any (evidenceCell a) = true := by
  unfold computeColumnStat
  simp only []
  rw [show (((rows.foldl (classifyStep gm a ((jsParseFloat a.totalMarks).getD (JsNum.ofInt 0)))
      { hasNumeric := false, hasGrade := false, vals := [] }).hasNumeric)
        || ((rows.foldl (classifyStep gm a ((jsParseFloat a.totalMarks).getD (JsNum.ofInt 0)))
      { hasNumeric := false, hasGrade := false, vals := [] }).hasGrade))
      = rows.any (evidenceCell a) by
    rw [classify_fold_flags]; rfl]
  cases h : rows.any (evidenceCell a) <;> simp

/-! ## Claim C8 -/

/-- Lookup after appending a single pair. -/
theorem gmLookup_append_single (m : GradeMapping) (u v k : String) :
    gmLookup (m ++ [(u, v)]) k
      = (gmLookup m k).or (if u == k then some v else none) := by
  unfold gmLookup
  rw [List.find?_append]
  cases h : List.find? (fun p => p.1 == k) m with
  | some p => simp
  | none =>
    cases hu : (u == k) <;> simp [List.find?, hu]

/-- Merging discovered statuses: an existing key keeps its value, a new key
that is the uppercase of a discovered status receives `"0"`, and no other
key appears. -/
theorem gmLookup_mergeFoundStatuses (found : List String) (m : GradeMapping) (k : String) :
    gmLookup (mergeFoundStatuses m found) k
      = (gmLookup m k).or
          (if (found.map jsToUpper).contains k then some ("0") else none) := by
  induction found generalizing m with
  | nil => simp [mergeFoundStatuses]
  | cons s t ih =>
    show gmLookup (mergeFoundStatuses
        (if gmHas m (jsToUpper s) then m else m ++ [(jsToUpper s, ("0"))]) t) k = _
    rw [ih]
    by_cases hu : gmHas m (jsToUpper s) = true
    · rw [if_pos hu]
      by_cases hk : ((jsToUpper s) == k) = true
      · have heq : jsToUpper s = k := eq_of_beq hk
        cases hl : gmLookup m k with
        | some w => simp
        | none =>
          unfold gmHas at hu
          rw [heq, hl] at hu
          cases hu
      · simp only [List.map_cons, List.contains_cons]
        rw [show (k == jsToUpper s) = false from ?_]
        · simp
        · cases hkk : (k == jsToUpper s)
          · rfl
          · exact absurd (by rw [eq_of_beq hkk]; exact beq_self_eq_true _) hk
    · rw [if_neg hu, gmLookup_append_single]
      simp only [List.map_cons, List.contains_cons]
      rw [Option.or_assoc]
      congr 1
      by_cases hk : ((jsToUpper s) == k) = true
      · have heq : jsToUpper s = k := eq_of_beq hk
        rw [if_pos hk, show (k == jsToUpper s) = true from by rw [heq]; exact beq_self_eq_true _]
        simp
      · rw [if_neg hk, show (k == jsToUpper s) = false from ?_]
        · simp
        · cases hkk : (k == jsToUpper s)
          · rfl
          · exact absurd (by rw [eq_of_beq hkk]; exact beq_self_eq_true _) hk

/-- Merging statuses whose uppercase keys are all present changes nothing. -/
theorem mergeFoundStatuses_no_new (found : List String) (m : GradeMapping)
    (h : ∀ s ∈ found, gmHas m (jsToUpper s) = true) :
    mergeFoundStatuses m found = m := by
  induction found with
  | nil => rfl
  | cons s t ih =>
    show mergeFoundStatuses
        (if gmHas m (jsToUpper s) then m else m ++ [(jsToUpper s, ("0"))]) t = m
    rw [if_pos (h s (List.mem_cons_self s t))]
    exact ih (fun x hx => h x (List.mem_cons_of_mem s hx))

/-- After one merge every discovered status's uppercase key is present. -/
theorem gmHas_mergeFoundStatuses_of_mem (found : List String) (m : GradeMapping)
    (s : String) (hs : s ∈ found) :
    gmHas (mergeFoundStatuses m found) (jsToUpper s) = true := by
  unfold gmHas
  rw [gmLookup_mergeFoundStatuses]
  cases hl : gmLookup m (jsToUpper s) with
  | some v => rfl
  | none =>
    have hc : ((found.map jsToUpper).contains (jsToUpper s)) = true := by
      have hmem : jsToUpper s ∈ found.map jsToUpper := List.mem_map_of_mem jsToUpper hs
      exact List.elem_eq_true_of_mem hmem
    rw [if_pos hc]
    rfl

/-- C8: merging the discovery pass's proposed tokens into a grade mapping
adds only uppercased keys not already present, each with value `"0"`,
never changing an existing key's value; and re-running the pass and merge
on the same content proposes nothing new (the merge is idempotent). -/
theorem claim_C8_theorem (prev : GradeMapping) (content : String) :
    (∀ k, gmLookup (mergeFoundStatuses prev (getUniqueNonNumericMarks (parseCSV content))) k
        = (gmLookup prev k).or
            (if ((getUniqueNonNumericMarks (parseCSV content)).map jsToUpper).contains k
             then some ("0") else none)) ∧
    mergeFoundStatuses
        (mergeFoundStatuses prev (getUniqueNonNumericMarks (parseCSV content)))
        (getUniqueNonNumericMarks (parseCSV content))
      = mergeFoundStatuses prev (getUniqueNonNumericMarks (parseCSV content)) := by
  constructor
  · intro k
    exact gmLookup_mergeFoundStatuses _ _ _
  · exact mergeFoundStatuses_no_new _ _
      (fun s hs => gmHas_mergeFoundStatuses_of_mem _ _ s hs)

/-! ## Claim C6 -/

/-- C6 (amended): after parsing, every row is at least as wide as the first
row: rows that parsed shorter are right-padded with empty strings up to the
first row's width, but a row that parsed into more cells than the first row
keeps its greater width (it is not truncated or equalised), so widths are
bounded below, not identical; see the counterexample. -/
theorem claim_C6_theorem (content : String) (row : List String)
    (h : row ∈ (parseCSV content).data) :
    (parseCSV content).headers.length ≤ row.length := by
  simp only [parseCSV] at h ⊢
  by_cases hl : ((splitLinesJS content).filter (fun line => jsTrim line != (""))).length = 0
  · rw [if_pos hl] at h
    simp at h
  · rw [if_neg hl] at h ⊢
    dsimp only at h ⊢
    generalize hD : ((splitLinesJS content).filter (fun line => jsTrim line != (""))).map parseCSVLine = D at h ⊢
    have hDne : D ≠ [] := by
      intro hnil
      rw [hnil] at hD
      have hlen := congrArg List.length hD
      simp at hlen
      exact hl (by simpa using hlen)
    obtain ⟨d0, rest, rfl⟩ := List.exists_cons_of_ne_nil hDne
    simp only [List.map_cons, List.headD_cons] at h ⊢
    rw [if_neg (by omega : ¬ d0.length < d0.length)] at h ⊢
    rcases List.mem_cons.mp h with h | h
    · subst h
      exact le_refl _
    · rcases List.mem_map.mp h with ⟨r, hr, hrow⟩
      by_cases hlen : r.length < d0.length
      · rw [if_pos hlen] at hrow
        rw [← hrow]
        simp only [List.length_append, List.length_replicate]
        omega
      · rw [if_neg hlen] at hrow
        rw [← hrow]
        omega

/-- C6 witness: in `a,b` over `c`, the second row is padded to the first
row's width of two. -/
theorem claim_C6_witness :
    (([("c"), ("")]) : List String) ∈ (parseCSV ("a,b\nc")).data ∧
    (parseCSV ("a,b\nc")).headers.length ≤ (([("c"), ("")]) : List String).length :=
  ⟨by decide, claim_C6_theorem ("a,b\nc") ([("c"), ("")]) (by decide)⟩

/-- C6 counterexample: for the input `a` over `b,c`, the second parsed row
keeps width 2 while the first row (and the header list) has width 1, so not
every row has the first row's column count. -/
theorem claim_C6_counterexample :
    ((parseCSV ("a\nb,c")).data.map List.length) = [1, 2] ∧
    (parseCSV ("a\nb,c")).headers.length = 1 := by
  constructor
  · decide
  · decide

/-! ## Claim C7 -/

/-- C7 (amended): each emitted record line wraps the student name and the
category in double quotes as-is (internal double quotes are NOT doubled for
them), wraps the assignment name in double quotes with internal double
quotes doubled, emits the date, the mark and the total bare, and an empty
mark stays an empty field; the header line is fixed. -/
theorem claim_C7_theorem (rows : List TargetRow) :
    generateCSVContent rows
      = joinWith ("\n") (joinWith (",") csvHeaders :: rows.map amendedLineSpec) := by
  simp only [generateCSVContent, List.map_map]
  congr 1
  congr 1
  apply List.map_congr_left
  intro r _
  unfold amendedLineSpec quoteDoubledField
  by_cases h : r.Marks = ("")
  · simp [h]
  · simp only [Function.comp_apply, if_neg h]

/-- C7 counterexample: a student name containing a double quote is emitted
without doubling that quote, so the output differs from the line required
by the claim (every string field quoted with internal quotes doubled). -/
theorem claim_C7_counterexample :
    generateCSVContent
        [(⟨("a\"b"), ("HW"), ("05/01/2026"), ("Coursework"), ("5.0"), ("10.0")⟩ : TargetRow)]
      ≠ joinWith ("\n") (joinWith (",") csvHeaders ::
          [claimedLineSpec (⟨("a\"b"), ("HW"), ("05/01/2026"), ("Coursework"), ("5.0"), ("10.0")⟩ : TargetRow)]) := by
  decide

/-! ## The conversion loop, decomposed -/

/-- The conversion on a too-short table is empty. -/
theorem processClassInToGradebook_short (pd : ParseResult) (selectedDate : String)
    (gm : GradeMapping) (today : Int) (rand : Nat → Nat)
    (h : pd.data.length < headerIdxOf pd + 2) :
    processClassInToGradebook pd selectedDate gm today rand = [] := by
  unfold headerIdxOf at h
  simp only [processClassInToGradebook]
  rw [if_pos h]

/-- The conversion, written with the named table projections: one flatMap
over the student rows, one filterMap over the valid assignments, records
built from the stats and dates dictionaries. -/
theorem processClassInToGradebook_eq (pd : ParseResult) (selectedDate : String)
    (gm : GradeMapping) (today : Int) (rand : Nat → Nat)
    (h : ¬ pd.data.length < headerIdxOf pd + 2) :
    processClassInToGradebook pd selectedDate gm today rand =
      (studentRowsOf pd).flatMap (fun row =>
        if row.headD ("") = ("") ∨ chStartsWith (row.headD ("")).data ("---".data) = true then []
        else
          (validAssignmentsOf pd).filterMap (fun a =>
            if jsTrim (row.getD a.originalIndex ("")) = jsTrim a.name then none
            else
              some { StudentName := row.headD ("")
                   , AssignmentName := a.name
                   , AssignmentDate := jsOrEmptyOpt
                       (dictLookup (assignmentDatesMapOf pd selectedDate today rand) a.name)
                       (fallbackDateOf selectedDate)
                   , Category := ("Coursework")
                   , Marks := resolveMark gm
                       ((dictLookup (columnStatsMapOf gm pd) a.name).getD
                         { type := ColType.PURE_STATUS, average := JsNum.ofInt 0 })
                       ((jsParseFloat a.totalMarks).getD (JsNum.ofInt 0))
                       (jsTrim (row.getD a.originalIndex ("")))
                   , TotalMarksPossible :=
                       toFixed1 ((jsParseFloat a.totalMarks).getD (JsNum.ofInt 0)) })) := by
  have h2 := h
  unfold headerIdxOf at h2
  simp only [processClassInToGradebook]
  rw [if_neg h2]
  unfold studentRowsOf columnStatsMapOf assignmentDatesMapOf validAssignmentsOf headerIdxOf
  rw [if_neg h2]
  rfl

/-- Every record of the conversion comes from a qualifying student row and
a valid assignment whose cell differs from the assignment's name, and its
fields are exactly the built ones. -/
theorem mem_process_elim {pd : ParseResult} {selectedDate : String} {gm : GradeMapping}
    {today : Int} {rand : Nat → Nat} {rec : TargetRow}
    (h : rec ∈ processClassInToGradebook pd selectedDate gm today rand) :
    ∃ row ∈ studentRowsOf pd, qualifiesRow row = true ∧
      ∃ b ∈ validAssignmentsOf pd,
        jsTrim (row.getD b.originalIndex ("")) ≠ jsTrim b.name ∧
        rec = { StudentName := row.headD ("")
              , AssignmentName := b.name
              , AssignmentDate := jsOrEmptyOpt
                  (dictLookup (assignmentDatesMapOf pd selectedDate today rand) b.name)
                  (fallbackDateOf selectedDate)
              , Category := ("Coursework")
              , Marks := resolveMark gm
                  ((dictLookup (columnStatsMapOf gm pd) b.name).getD
                    { type := ColType.PURE_STATUS, average := JsNum.ofInt 0 })
                  ((jsParseFloat b.totalMarks).getD (JsNum.ofInt 0))
                  (jsTrim (row.getD b.originalIndex ("")))
              , TotalMarksPossible :=
                  toFixed1 ((jsParseFloat b.totalMarks).getD (JsNum.ofInt 0)) } := by
  by_cases hshort : pd.data.length < headerIdxOf pd + 2
  · rw [processClassInToGradebook_short pd selectedDate gm today rand hshort] at h
    cases h
  · rw [processClassInToGradebook_eq pd selectedDate gm today rand hshort] at h
    rcases List.mem_flatMap.mp h with ⟨row, hrow, hmem⟩
    by_cases hq : (row.headD ("") = ("") ∨ chStartsWith (row.headD ("")).data ("---".data) = true)
    · rw [if_pos hq] at hmem
      cases hmem
    · rw [if_neg hq] at hmem
      rcases List.mem_filterMap.mp hmem with ⟨b, hb, hsome⟩
      by_cases hskip : jsTrim (row.getD b.originalIndex ("")) = jsTrim b.name
      · rw [if_pos hskip] at hsome
        cases hsome
      · rw [if_neg hskip] at hsome
        refine ⟨row, hrow, (qualifiesRow_iff row).mpr hq, b, hb, hskip, ?_⟩
        exact (Option.some_inj.mp hsome).symm

/-! ## Claim C1 -/

/-- C1 (amended): the conversion emits one TargetRecord per pair of a
qualifying student row and a valid assignment whose trimmed cell value
differs from the assignment's trimmed name; pairs whose cell equals the
assignment name are skipped, so the length is the sum over qualifying
rows of the count of such assignments (not the full product). -/
theorem claim_C1_theorem (pd : ParseResult) (selectedDate : String) (gm : GradeMapping)
    (today : Int) (rand : Nat → Nat) :
    (processClassInToGradebook pd selectedDate gm today rand).length =
      ((qualifyingRowsOf pd).map (fun row =>
        (validAssignmentsOf pd).countP (fun a =>
          decide (jsTrim (row.getD a.originalIndex ("")) ≠ jsTrim a.name)))).sum := by
  by_cases hshort : pd.data.length < headerIdxOf pd + 2
  · rw [processClassInToGradebook_short pd selectedDate gm today rand hshort]
    have hv : validAssignmentsOf pd = [] := by
      unfold validAssignmentsOf
      rw [if_pos hshort]
    rw [hv]
    simp
  · rw [processClassInToGradebook_eq pd selectedDate gm today rand hshort, List.length_flatMap]
    unfold qualifyingRowsOf
    rw [sum_map_filter_eq qualifiesRow _ (studentRowsOf pd)]
    congr 1
    apply List.map_congr_left
    intro row _
    by_cases hq : (row.headD ("") = ("") ∨ chStartsWith (row.headD ("")).data ("---".data) = true)
    · have hqf : qualifiesRow row = false := by
        cases hqr : qualifiesRow row
        · rfl
        · exact absurd hq ((qualifiesRow_iff row).mp hqr)
      simp only [Function.comp_apply, if_pos hq, hqf]
      simp
    · have hqt : qualifiesRow row = true := (qualifiesRow_iff row).mpr hq
      simp only [Function.comp_apply, if_neg hq, hqt, if_true]
      rw [length_filterMap_isSome]
      apply List.countP_congr
      intro a _
      by_cases hs : jsTrim (row.getD a.originalIndex ("")) = jsTrim a.name
      · simp [hs]
      · simp [hs]

/-- C1 counterexample: one qualifying student and one valid assignment, but
the student's cell equals the assignment name `HW1`, so zero records are
emitted instead of the claimed `1 × 1 = 1`. -/
theorem claim_C1_counterexample :
    (processClassInToGradebook (parseCSV ("Name,HW1\nMax,10\nCat,-\nAlice,HW1"))
        ("2026-01-05") [] (jsDateDays 2026 1 5) (fun _ => 0)).length = 0 ∧
    (qualifyingRowsOf (parseCSV ("Name,HW1\nMax,10\nCat,-\nAlice,HW1"))).length = 1 ∧
    (validAssignmentsOf (parseCSV ("Name,HW1\nMax,10\nCat,-\nAlice,HW1"))).length = 1 := by
  refine ⟨?_, ?_, ?_⟩
  · decide
  · decide
  · decide

/-! ## Claim C4 -/

/-- Every resolved mark is the empty string, the bare string `0`, or a
`toFixed1` rendering. -/
theorem resolveMark_shape (gm : GradeMapping) (stats : ColumnStat) (tm : JsNum) (raw : String) :
    resolveMark gm stats tm raw = ("") ∨ resolveMark gm stats tm raw = ("0") ∨
      ∃ q, resolveMark gm stats tm raw = toFixed1 q := by
  by_cases h0 : raw = ("-")
  · left
    simp [resolveMark, h0]
  cases stats with
  | mk t avg =>
    cases t with
    | PURE_STATUS =>
      by_cases h1 : raw = ("已提交")
      · right; right
        exact ⟨tm, by simp [resolveMark, h0, h1, jsReplaceDotZeroSuffix_eq]⟩
      by_cases h2 : raw = ("未提交")
      · right; left
        simp [resolveMark, h0, h1, h2, jsReplaceDotZeroSuffix_eq]
      by_cases h3 : raw = ("已补交")
      · right; right
        exact ⟨((JsNum.ofInt 60).div (JsNum.ofInt 100)).mul tm, by
          simp [resolveMark, h0, h1, h2, h3, jsReplaceDotZeroSuffix_eq]⟩
      cases hpf : jsParseFloat raw with
      | some q =>
        right; right
        exact ⟨q, by simp [resolveMark, h0, h1, h2, h3, hpf, jsReplaceDotZeroSuffix_eq]⟩
      | none =>
        cases hlk : gmLookup gm (jsToUpper raw) with
        | some m =>
          by_cases hm : (m ≠ ("") ∧ (jsParseFloat m).isSome = true)
          · right; right
            exact ⟨mappedScore m tm, by
              simp [resolveMark, h0, h1, h2, h3, hpf, hlk, hm, jsReplaceDotZeroSuffix_eq]⟩
          · left
            simp [resolveMark, h0, h1, h2, h3, hpf, hlk, hm]
        | none =>
          left
          simp [resolveMark, h0, h1, h2, h3, hpf, hlk]
    | MIXED =>
      by_cases h2 : raw = ("未提交")
      · right; left
        simp [resolveMark, h0, h2, jsReplaceDotZeroSuffix_eq]
      by_cases h1 : raw = ("已提交")
      · right; right
        exact ⟨avg, by
          simp [resolveMark, h0, h1, h2, jsReplaceDotZeroSuffix_eq, jsOrEmpty_toFixed1]⟩
      cases hpf : jsParseFloat raw with
      | some q =>
        right; right
        exact ⟨q, by simp [resolveMark, h0, h1, h2, hpf, jsReplaceDotZeroSuffix_eq]⟩
      | none =>
        cases hlk : gmLookup gm (jsToUpper raw) with
        | some m =>
          by_cases hm : (m ≠ ("") ∧ (jsParseFloat m).isSome = true)
          · right; right
            exact ⟨mappedScore m tm, by
              simp [resolveMark, h0, h1, h2, hpf, hlk, hm, jsReplaceDotZeroSuffix_eq]⟩
          · left
            simp [resolveMark, h0, h1, h2, hpf, hlk, hm]
        | none =>
          left
          simp [resolveMark, h0, h1, h2, hpf, hlk]

/-- C4 (amended): every non-empty mark string placed in a TargetRecord's
Marks field either is rendered with exactly one decimal place, or is the
bare string `0` produced by the `未提交` rule (which the source sets
without a decimal point, so a `未提交` cell yields `0`, not `0.0`; see
the counterexample), or comes from `toFixed`'s `ToString` escape branch
for a non-finite mark value or one of magnitude at least `10^21` (a cell
`Infinity` yields the mark `Infinity`). -/
theorem claim_C4_theorem (pd : ParseResult) (selectedDate : String) (gm : GradeMapping)
    (today : Int) (rand : Nat → Nat) (rec : TargetRow)
    (hmem : rec ∈ processClassInToGradebook pd selectedDate gm today rand)
    (hne : rec.Marks ≠ ("")) :
    oneDecimalPlace rec.Marks = true ∨ rec.Marks = ("0") ∨
      ∃ x, toFixedBig x = true ∧ rec.Marks = toFixed1 x := by
  rcases mem_process_elim hmem with ⟨row, hrow, hq, b, hb, hskip, hrec⟩
  have hmarks : rec.Marks = resolveMark gm
      ((dictLookup (columnStatsMapOf gm pd) b.name).getD
        { type := ColType.PURE_STATUS, average := JsNum.ofInt 0 })
      ((jsParseFloat b.totalMarks).getD (JsNum.ofInt 0))
      (jsTrim (row.getD b.originalIndex (""))) := by rw [hrec]
  rcases resolveMark_shape gm
      ((dictLookup (columnStatsMapOf gm pd) b.name).getD
        { type := ColType.PURE_STATUS, average := JsNum.ofInt 0 })
      ((jsParseFloat b.totalMarks).getD (JsNum.ofInt 0))
      (jsTrim (row.getD b.originalIndex (""))) with hsh | hsh | hsh
  · rw [hmarks, hsh] at hne
    exact absurd rfl hne
  · right
    left
    rw [hmarks, hsh]
  · rcases hsh with ⟨x, hsh⟩
    by_cases hbig : toFixedBig x = true
    · right
      right
      exact ⟨x, hbig, by rw [hmarks, hsh]⟩
    · left
      have hb2 : toFixedBig x = false := by
        cases hq2 : toFixedBig x with
        | false => rfl
        | true => exact absurd hq2 hbig
      rw [hmarks, hsh]
      exact oneDecimalPlace_toFixed1 x hb2

/-- C4 witness: the mark `5.0` of a literal-score record of the conversion
has one decimal place. -/
theorem claim_C4_witness :
    oneDecimalPlace ("5.0") = true ∨ ("5.0") = ("0") ∨
      ∃ x, toFixedBig x = true ∧ ("5.0") = toFixed1 x :=
  claim_C4_theorem (parseCSV ("Name,HW1\nMax,10\nCat,-\nAlice,5")) ("2026-01-05") []
    (jsDateDays 2026 1 5) (fun _ => 0)
    (⟨("Alice"), ("HW1"), ("05/01/2026"), ("Coursework"), ("5.0"), ("10.0")⟩ : TargetRow)
    (by decide) (by decide)

/-- C4 counterexample: a `未提交` cell produces the mark string `0`, which
is non-empty and is not rendered with one decimal place. -/
theorem claim_C4_counterexample :
    processClassInToGradebook (parseCSV ("Name,HW1\nMax,10\nCat,-\nAlice,未提交"))
        ("2026-01-05") [] (jsDateDays 2026 1 5) (fun _ => 0)
      = [(⟨("Alice"), ("HW1"), ("05/01/2026"), ("Coursework"), ("0"), ("10.0")⟩ : TargetRow)] ∧
    oneDecimalPlace ("0") = false ∧ ("0") ≠ ("") := by
  refine ⟨?_, ?_, ?_⟩
  · decide
  · decide
  · decide

/-! ## Claim C5 -/

/-- Characterisation of the discovery pass's per-cell filter. -/
theorem discovery_inner_eq_some (headerRow row : List String) (i : Nat) (s : String) :
    ((if jsTrim (row.getD i ("")) = jsTrim (headerRow.getD i ("")) then none
      else if jsTrim (row.getD i ("")) = ("-") ∨ jsTrim (row.getD i ("")) = ("成绩类别")
          ∨ jsTrim (row.getD i ("")) = ("Category") then none
      else if jsTrim (row.getD i ("")) ≠ ("") ∧ (jsParseFloat (jsTrim (row.getD i ("")))).isNone
        then some (jsTrim (row.getD i ("")))
      else none) = some s)
    ↔ (jsTrim (row.getD i ("")) = s ∧ s ≠ jsTrim (headerRow.getD i ("")) ∧
       s ≠ ("-") ∧ s ≠ ("成绩类别") ∧ s ≠ ("Category") ∧
       s ≠ ("") ∧ jsParseFloat s = none) := by
  by_cases c1 : jsTrim (row.getD i ("")) = jsTrim (headerRow.getD i (""))
  · rw [if_pos c1]
    constructor
    · intro h
      cases h
    · rintro ⟨heq, hne, _⟩
      exact absurd (heq ▸ c1) hne
  · rw [if_neg c1]
    by_cases c2 : (jsTrim (row.getD i ("")) = ("-") ∨ jsTrim (row.getD i ("")) = ("成绩类别")
        ∨ jsTrim (row.getD i ("")) = ("Category"))
    · rw [if_pos c2]
      constructor
      · intro h
        cases h
      · rintro ⟨heq, _, h3, h4, h5, _⟩
        subst heq
        rcases c2 with hc | hc | hc
        · exact (h3 hc).elim
        · exact (h4 hc).elim
        · exact (h5 hc).elim
    · rw [if_neg c2]
      push_neg at c2
      by_cases c3 : (jsTrim (row.getD i ("")) ≠ ("") ∧ (jsParseFloat (jsTrim (row.getD i ("")))).isNone)
      · rw [if_pos c3]
        constructor
        · intro h
          have heq := Option.some_inj.mp h
          subst heq
          exact ⟨rfl, c1, c2.1, c2.2.1, c2.2.2, c3.1, Option.isNone_iff_eq_none.mp c3.2⟩
        · rintro ⟨heq, _⟩
          rw [heq]
      · rw [if_neg c3]
        constructor
        · intro h
          cases h
        · rintro ⟨heq, _, _, _, _, h6, h7⟩
          subst heq
          exact absurd ⟨h6, Option.isNone_iff_eq_none.mpr h7⟩ c3

/-- C5 (amended): the discovery function returns, without duplicates,
exactly the trimmed cell values of valid assignment columns of qualifying
student rows that are non-empty, differ from the column's trimmed header
cell and from the placeholders `-`, `成绩类别` and `Category`, and whose
`parseFloat` is `NaN` — standard grade letters are NOT excluded (a cell
`A` is returned), and prefix-numeric strings such as `12abc` ARE excluded
even though they are not purely numeric; see the counterexample. -/
theorem claim_C5_theorem (pd : ParseResult) :
    (getUniqueNonNumericMarks pd).Nodup ∧
    (∀ s, s ∈ getUniqueNonNumericMarks pd ↔
      (2 ≤ pd.data.length ∧ headerIdxOf pd + 1 < pd.data.length ∧
       ∃ row ∈ studentRowsOf pd, qualifiesRow row = true ∧
         ∃ i ∈ validIndicesFrom (pd.data.getD (headerIdxOf pd) [])
             (pd.data.getD (headerIdxOf pd + 1) []),
           jsTrim (row.getD i ("")) = s ∧
           s ≠ jsTrim ((pd.data.getD (headerIdxOf pd) []).getD i ("")) ∧
           s ≠ ("-") ∧ s ≠ ("成绩类别") ∧ s ≠ ("Category") ∧
           s ≠ ("") ∧ jsParseFloat s = none)) := by
  unfold headerIdxOf studentRowsOf
  simp only [getUniqueNonNumericMarks]
  by_cases hg1 : pd.data.length < 2
  · rw [if_pos hg1]
    refine ⟨List.nodup_nil, fun s => ?_⟩
    constructor
    · intro h
      cases h
    · rintro ⟨hlen, _⟩
      omega
  · rw [if_neg hg1]
    by_cases hg2 : pd.data.length ≤ findHeaderRowIndex pd.data + 1
    · rw [if_pos hg2]
      refine ⟨List.nodup_nil, fun s => ?_⟩
      constructor
      · intro h
        cases h
      · rintro ⟨_, hlen, _⟩
        omega
    · rw [if_neg hg2]
      refine ⟨nodup_foldl_insertUniq _ [] List.nodup_nil, fun s => ?_⟩
      rw [mem_foldl_insertUniq]
      simp only [List.not_mem_nil, false_or]
      rw [List.mem_flatMap]
      constructor
      · rintro ⟨row, hrow, hmem⟩
        by_cases hq : (row.headD ("") = ("") ∨ chStartsWith (row.headD ("")).data ("---".data) = true)
        · rw [if_pos hq] at hmem
          cases hmem
        · rw [if_neg hq] at hmem
          rcases List.mem_filterMap.mp hmem with ⟨i, hi, hsome⟩
          refine ⟨by omega, by omega, row, hrow,
            (qualifiesRow_iff row).mpr hq, i, hi, ?_⟩
          exact (discovery_inner_eq_some (pd.data.getD (findHeaderRowIndex pd.data) []) row i s).mp hsome
      · rintro ⟨_, _, row, hrow, hq, i, hi, hconds⟩
        refine ⟨row, hrow, ?_⟩
        rw [if_neg (by
          intro hcontra
          exact (qualifiesRow_iff row).mp hq hcontra)]
        exact List.mem_filterMap.mpr ⟨i, hi,
          (discovery_inner_eq_some (pd.data.getD (findHeaderRowIndex pd.data) []) row i s).mpr hconds⟩

/-- C5 counterexample: the standard grade letter `A` appearing in a valid
assignment column is returned by the discovery function, so the returned
set is not free of standard grade letters. -/
theorem claim_C5_counterexample :
    getUniqueNonNumericMarks (parseCSV ("Name,HW1\nMax,10\nCat,-\nAlice,A")) = [("A")] ∧
    STANDARD_GRADES.contains ("A") = true := by
  constructor
  · decide
  · decide

/-! ## Claim C10 -/

/-- Looking up a key in a dictionary built by prepending `(key x, val x)`
for each element finds the value of the LAST element carrying that key. -/
theorem dictLookup_keyval_fold {α β : Type} (key : α → String) (val : α → β)
    (l : List α) (k : String) :
    dictLookup (l.foldl (fun acc x => (key x, val x) :: acc) []) k
      = ((l.filter (fun x => key x == k)).getLast?).map val := by
  suffices h : ∀ init, dictLookup (l.foldl (fun acc x => (key x, val x) :: acc) init) k
      = (match (l.filter (fun x => key x == k)).getLast? with
         | some x => some (val x)
         | none => dictLookup init k) by
    rw [h []]
    cases hl : (l.filter (fun x => key x == k)).getLast? <;> simp [dictLookup]
  intro init
  induction l generalizing init with
  | nil => rfl
  | cons a t ih =>
    rw [List.foldl_cons, ih]
    by_cases h : (key a == k) = true
    · rw [List.filter_cons, if_pos h]
      cases hl : (t.filter (fun x => key x == k)).getLast? with
      | some p =>
        rw [List.getLast?_cons, hl]
        simp
      | none =>
        rw [List.getLast?_cons, hl]
        simp [dictLookup_cons, h]
    · rw [List.filter_cons, if_neg h]
      cases hl : (t.filter (fun x => key x == k)).getLast? with
      | some p => simp
      | none => simp [dictLookup_cons, h]

/-- The `columnStats` object maps a name to the statistics computed for the
last (rightmost) valid assignment with that name. -/
theorem dictLookup_buildColumnStats (gm : GradeMapping) (rows : List (List String))
    (l : List ProcessedAssignment) (k : String) :
    dictLookup (buildColumnStats gm rows l) k
      = ((l.filter (fun b => b.name == k)).getLast?).map (computeColumnStat gm rows) := by
  unfold buildColumnStats
  exact dictLookup_keyval_fold (fun a => a.name) (computeColumnStat gm rows) l k

/-- The `assignmentDates` object maps a name to the working day drawn for
the last (rightmost) valid assignment with that name. -/
theorem dictLookup_buildAssignmentDates (l : List ProcessedAssignment)
    (workingDays : List String) (rand : Nat → Nat) (k : String) :
    dictLookup (buildAssignmentDates l workingDays rand) k
      = ((l.enum.filter (fun p => p.2.name == k)).getLast?).map
          (fun p => workingDays.getD (rand p.1 % workingDays.length) ("")) := by
  unfold buildAssignmentDates
  exact dictLookup_keyval_fold (fun p => p.2.name)
    (fun p => workingDays.getD (rand p.1 % workingDays.length) ("")) l.enum k

/-- C10: column statistics and synthesized dates are keyed by assignment
name, not column index: the stats looked up for an assignment are those
computed for the last (rightmost) valid assignment with the same name, the
date looked up is the single draw made for that rightmost column, and
every emitted record reads its date (like its stats) through that
name-keyed lookup. -/
theorem claim_C10_theorem (pd : ParseResult) (selectedDate : String) (gm : GradeMapping)
    (today : Int) (rand : Nat → Nat) (a : ProcessedAssignment) (rec : TargetRow)
    (ha : a ∈ validAssignmentsOf pd)
    (hrec : rec ∈ processClassInToGradebook pd selectedDate gm today rand)
    (hname : rec.AssignmentName = a.name) :
    dictLookup (columnStatsMapOf gm pd) a.name
        = ((validAssignmentsOf pd).filter (fun b => b.name == a.name)).getLast?.map
            (computeColumnStat gm (studentRowsOf pd)) ∧
    dictLookup (assignmentDatesMapOf pd selectedDate today rand) a.name
        = (((validAssignmentsOf pd).enum.filter (fun p => p.2.name == a.name)).getLast?).map
            (fun p => (getWorkingDaysFromStartToToday selectedDate today).getD
              (rand p.1 % (getWorkingDaysFromStartToToday selectedDate today).length) ("")) ∧
    rec.AssignmentDate = jsOrEmptyOpt
        (dictLookup (assignmentDatesMapOf pd selectedDate today rand) a.name)
        (fallbackDateOf selectedDate) := by
  refine ⟨dictLookup_buildColumnStats _ _ _ _, dictLookup_buildAssignmentDates _ _ _ _, ?_⟩
  rcases mem_process_elim hrec with ⟨row, hrow, hq, b, hb, hskip, hrecEq⟩
  have hdate : rec.AssignmentDate = jsOrEmptyOpt
      (dictLookup (assignmentDatesMapOf pd selectedDate today rand) b.name)
      (fallbackDateOf selectedDate) := by rw [hrecEq]
  have hbn : b.name = a.name := by rw [← hname, hrecEq]
  rw [hdate, hbn]

/-- C10 witness: with two valid assignment columns both named `HW` (totals
10 and 20), the stats and date lookups for the left column's name return
the rightmost column's computed values, and the emitted record for the
left column carries that looked-up date. -/
theorem claim_C10_witness :
    dictLookup (columnStatsMapOf []
          (parseCSV ("Name,HW,HW\nMax,10,20\nCat,-,-\nAlice,5,已提交"))) ("HW")
        = ((validAssignmentsOf
              (parseCSV ("Name,HW,HW\nMax,10,20\nCat,-,-\nAlice,5,已提交"))).filter
            (fun b => b.name == ("HW"))).getLast?.map
            (computeColumnStat []
              (studentRowsOf (parseCSV ("Name,HW,HW\nMax,10,20\nCat,-,-\nAlice,5,已提交")))) ∧
    dictLookup (assignmentDatesMapOf
          (parseCSV ("Name,HW,HW\nMax,10,20\nCat,-,-\nAlice,5,已提交"))
          ("2026-01-05") (jsDateDays 2026 1 5) (fun _ => 0)) ("HW")
        = (((validAssignmentsOf
              (parseCSV ("Name,HW,HW\nMax,10,20\nCat,-,-\nAlice,5,已提交"))).enum.filter
            (fun p => p.2.name == ("HW"))).getLast?).map
            (fun p => (getWorkingDaysFromStartToToday ("2026-01-05") (jsDateDays 2026 1 5)).getD
              ((fun _ => 0) p.1 % (getWorkingDaysFromStartToToday ("2026-01-05")
                (jsDateDays 2026 1 5)).length) ("")) ∧
    ("05/01/2026") = jsOrEmptyOpt
        (dictLookup (assignmentDatesMapOf
          (parseCSV ("Name,HW,HW\nMax,10,20\nCat,-,-\nAlice,5,已提交"))
          ("2026-01-05") (jsDateDays 2026 1 5) (fun _ => 0)) ("HW"))
        (fallbackDateOf ("2026-01-05")) :=
  claim_C10_theorem (parseCSV ("Name,HW,HW\nMax,10,20\nCat,-,-\nAlice,5,已提交"))
    ("2026-01-05") [] (jsDateDays 2026 1 5) (fun _ => 0)
    (⟨("HW"), ("10"), 1⟩ : ProcessedAssignment)
    (⟨("Alice"), ("HW"), ("05/01/2026"), ("Coursework"), ("5.0"), ("10.0")⟩ : TargetRow)
    (by decide) (by decide) (by decide)
